import Mathlib

/-!
Shallow embedding of `src/mbgl/geometry/feature_index.cpp` (mapbox-gl-native):
the per-tile `FeatureIndex` with `insert`, `setBucketLayerIDs`, `query`,
`addFeature` and `translateQueryGeometry`, together with models of the
collaborators the file consumes (grid index, tile data, collision index,
render layers, filter).  Machine floating-point values are modelled as
rationals; the float-to-integer conversions of the source are modelled as
truncation toward zero.  `std::sort` (whose order among elements that compare
equal is unspecified) is modelled by `List.insertionSort`, a sorted permutation
for the same comparator.
-/

namespace FeatureIndexSpec

/-- `util::EXTENT` (tile extent in tile units). -/
def EXTENT : ℤ := 8192

/-- `std::numeric_limits<int16_t>::lowest()`. -/
def INT16_MIN : ℤ := -32768

/-- `std::numeric_limits<int16_t>::max()`. -/
def INT16_MAX : ℤ := 32767

/-- `std::numeric_limits<size_t>::max()`, the initial `previousSortIndex`. -/
def USIZE_MAX : Nat := 18446744073709551615

/-- An exact fraction, the model of a machine floating-point value: the
source's float arithmetic (multiplication, division, addition, subtraction —
all exact on the magnitudes arising here) is modelled by exact fraction
arithmetic, kept unnormalised so that every operation is plain integer
arithmetic.  A value with nonzero denominator represents `num / den`. -/
structure Frac where
  num : ℤ
  den : ℤ
deriving DecidableEq, Repr

/-- Embed an integer as a fraction. -/
def Frac.ofInt (n : ℤ) : Frac :=
  ⟨n, 1⟩

/-- Exact product of two float values. -/
def Frac.mul (a b : Frac) : Frac :=
  ⟨a.num * b.num, a.den * b.den⟩

/-- Exact quotient of two float values. -/
def Frac.div (a b : Frac) : Frac :=
  ⟨a.num * b.den, a.den * b.num⟩

/-- Exact sum of two float values. -/
def Frac.add (a b : Frac) : Frac :=
  ⟨a.num * b.den + b.num * a.den, a.den * b.den⟩

/-- Exact difference of two float values. -/
def Frac.sub (a b : Frac) : Frac :=
  ⟨a.num * b.den - b.num * a.den, a.den * b.den⟩

/-- Truncation toward zero, modelling C++ float-to-integer conversion
(`Int.tdiv` truncates the true value `num / den` toward zero for either sign
of the denominator). -/
def fracTrunc (q : Frac) : ℤ :=
  Int.tdiv q.num q.den

/-- Narrowing an integer to `int16_t`.  For values inside
`[-32768, 32767]` this is the identity; outside that range the C++
float-to-`int16_t` conversion is undefined behaviour, modelled here as the
two's-complement wrap that mainstream targets produce for it. -/
def int16Narrow (n : ℤ) : ℤ :=
  (n + 32768) % 65536 - 32768

/-- A 2-D point in tile-local integer coordinates (`GeometryCoordinate`). -/
structure GPoint where
  x : ℤ
  y : ℤ
deriving DecidableEq, Repr

/-- An axis-aligned bounding box (`mapbox::geometry::box`). -/
structure GBox where
  min : GPoint
  max : GPoint
deriving DecidableEq, Repr

/-- Extend a box to cover one more point, as in `mapbox::geometry::envelope`. -/
def expandBox (b : GBox) (p : GPoint) : GBox :=
  ⟨⟨min b.min.x p.x, min b.min.y p.y⟩, ⟨max b.max.x p.x, max b.max.y p.y⟩⟩

/-- `mapbox::geometry::envelope`: bounding box of a point sequence, starting
from the (inverted) extreme box of the int16 coordinate type. -/
def envelope (ps : List GPoint) : GBox :=
  ps.foldl expandBox ⟨⟨INT16_MAX, INT16_MAX⟩, ⟨INT16_MIN, INT16_MIN⟩⟩

/-- The record stored per grid entry (`IndexedSubfeature`). -/
structure IndexedSubfeature where
  index : Nat
  sourceLayerName : String
  bucketName : String
  sortIndex : Nat
deriving DecidableEq, Repr

/-- Exact box-overlap test used by the grid's query. -/
def boxIntersects (a b : GBox) : Bool :=
  a.min.x ≤ b.max.x && b.min.x ≤ a.max.x && a.min.y ≤ b.max.y && b.min.y ≤ a.max.y

/-- Modelled from the spec: the Bounded Grid Index (`grid_index`, not part of
`feature_index.cpp`) stores (entry, bounding box) pairs; its contract is that
`query box` returns every stored entry whose box overlaps the query box, in an
unspecified order (here: insertion order). -/
abbrev Grid : Type :=
  List (IndexedSubfeature × GBox)

/-- Modelled from the spec: grid insertion appends an (entry, box) pair. -/
def gridInsert (g : Grid) (e : IndexedSubfeature) (b : GBox) : Grid :=
  g ++ [(e, b)]

/-- Modelled from the spec: grid query returns exactly the entries whose
stored box overlaps the query box. -/
def gridQuery (g : Grid) (b : GBox) : List IndexedSubfeature :=
  (g.filter (fun eb => boxIntersects eb.2 b)).map Prod.fst

/-- A feature held by the decoded tile data (`GeometryTileFeature`);
its payload is abstracted to a tag, all consumers being collaborator
functions. -/
structure GTFeature where
  tag : Nat
deriving DecidableEq, Repr

/-- The decoded tile data (`GeometryTileData`): named source layers, each an
ordered sequence of features addressed by ordinal. -/
abbrev TileData : Type :=
  List (String × List GTFeature)

/-- `GeometryTileData::getLayer`. -/
def getLayer (td : TileData) (name : String) : Option (List GTFeature) :=
  (td.find? (fun p => p.1 == name)).map Prod.snd

/-- `CanonicalTileID`. -/
structure CanonicalTileID where
  z : Nat
  x : Nat
  y : Nat
deriving DecidableEq, Repr

/-- `UnwrappedTileID`. -/
structure UnwrappedTileID where
  wrap : ℤ
  canonical : CanonicalTileID
deriving DecidableEq, Repr

/-- The public result representation. -/
structure Feature where
  raw : GTFeature
  tile : CanonicalTileID
deriving DecidableEq, Repr

/-- Modelled from the spec: `convertFeature` converts a tile feature to the
public result representation for the canonical tile id (geometry reprojected,
attributes copied). -/
def convertFeature (f : GTFeature) (tid : CanonicalTileID) : Feature :=
  ⟨f, tid⟩

/-- A render layer as consumed here: identity, the symbol-layer capability
flag (`is<RenderSymbolLayer>`), and the geometric intersection predicate
`queryIntersectsFeature(queryGeometry, feature, zoom, bearing,
pixelsToTileUnits)`. -/
structure RenderLayer where
  id : String
  isSymbol : Bool
  queryIntersectsFeature : List GPoint → GTFeature → Nat → Frac → Frac → Bool

/-- `RenderedQueryOptions`: the optional style filter predicate, evaluated at
`EvaluationContext { zoom, feature }`. -/
structure RenderedQueryOptions where
  filter : Option (Nat → GTFeature → Bool)

/-- The result mapping `std::unordered_map<std::string, std::vector<Feature>>`,
modelled as an association list. -/
abbrev ResultMap : Type :=
  List (String × List Feature)

/-- Read a layer's result sequence; a missing key reads as the empty
sequence (`operator[]` default-constructs). -/
def lookupResult (r : ResultMap) (layerID : String) : List Feature :=
  match r.find? (fun p => p.1 == layerID) with
  | some p => p.2
  | none => []

/-- `result[layerID].push_back(f)`: append to the layer's sequence, creating
the key if absent (the semantics of `unordered_map::operator[]` followed by
`push_back`). -/
def appendResult (r : ResultMap) (layerID : String) (f : Feature) : ResultMap :=
  match r with
  | [] => [(layerID, [f])]
  | p :: t => if p.1 == layerID then (p.1, p.2 ++ [f]) :: t else p :: appendResult t layerID f

/-- The collision index collaborator: `queryRenderedSymbols(queryGeometry,
tileID, sourceID)` as an opaque function. -/
abbrev CollisionIndex : Type :=
  List GPoint → UnwrappedTileID → String → List IndexedSubfeature

/-- The `FeatureIndex` aggregate: grid, running sort-index counter,
bucket-to-layers map, owned tile data. -/
structure FeatureIndex where
  grid : Grid
  sortIndex : Nat
  bucketLayerIDs : List (String × List String)
  tileData : Option TileData

/-- One iteration of `FeatureIndex::insert`'s ring loop: envelope the ring and
store an `IndexedSubfeature` carrying the freshly incremented sort index. -/
def insertRing (fi : FeatureIndex) (index : Nat)
    (sourceLayerName bucketName : String) (ring : List GPoint) : FeatureIndex :=
  { fi with
    grid := gridInsert fi.grid ⟨index, sourceLayerName, bucketName, fi.sortIndex⟩ (envelope ring)
    sortIndex := fi.sortIndex + 1 }

/-- `FeatureIndex::insert`. -/
def insert (fi : FeatureIndex) (geometries : List (List GPoint)) (index : Nat)
    (sourceLayerName bucketName : String) : FeatureIndex :=
  geometries.foldl (fun acc ring => insertRing acc index sourceLayerName bucketName ring) fi

/-- `bucketLayerIDs[bucketName] = layerIDs` on the unordered map: replace the
existing entry or add a new one. -/
def mapAssign (m : List (String × List String)) (k : String) (v : List String) :
    List (String × List String) :=
  match m with
  | [] => [(k, v)]
  | p :: t => if p.1 == k then (k, v) :: t else p :: mapAssign t k v

/-- `FeatureIndex::setBucketLayerIDs`. -/
def setBucketLayerIDs (fi : FeatureIndex) (bucketName : String)
    (layerIDs : List String) : FeatureIndex :=
  { fi with bucketLayerIDs := mapAssign fi.bucketLayerIDs bucketName layerIDs }

/-- `bucketLayerIDs.at(bucketName)`: `none` models the `std::out_of_range`
throw of `at` on a missing key. -/
def lookupBucket (m : List (String × List String)) (k : String) :
    Option (List String) :=
  (m.find? (fun p => p.1 == k)).map Prod.snd

/-- The `getRenderLayer` lambda of `addFeature`: linear search of the active
layers by identifier. -/
def getRenderLayer (layers : List RenderLayer) (layerID : String) :
    Option RenderLayer :=
  layers.find? (fun l => l.id == layerID)

/-- The lazy materialisation inside `addFeature`:
`tileData->getLayer(sourceLayerName)` then `sourceLayer->getFeature(index)`;
`none` models a failed `assert` (a precondition violation). -/
def resolveFeature (td : TileData) (f : IndexedSubfeature) : Option GTFeature :=
  match getLayer td f.sourceLayerName with
  | none => none
  | some layer => layer.get? f.index

/-- The two ways resolution can abort: the bucket-map `at` throw, and the
assertion failure on unresolvable tile data. -/
inductive AddErr where
  | bucketMissing
  | resolveFailed
deriving DecidableEq, Repr

instance {ε α : Type} [DecidableEq ε] [DecidableEq α] : DecidableEq (Except ε α) :=
  fun a b =>
    match a, b with
    | .error e1, .error e2 =>
      if h : e1 = e2 then .isTrue (by rw [h])
      else .isFalse (by intro hc; cases hc; exact h rfl)
    | .ok v1, .ok v2 =>
      if h : v1 = v2 then .isTrue (by rw [h])
      else .isFalse (by intro hc; cases hc; exact h rfl)
    | .error _, .ok _ => .isFalse (by intro hc; cases hc)
    | .ok _, .error _ => .isFalse (by intro hc; cases hc)

/-- The per-query-constant arguments threaded through `addFeature`. -/
structure QueryCtx where
  td : TileData
  bucketLayerIDs : List (String × List String)
  queryGeometry : List GPoint
  options : RenderedQueryOptions
  tileID : CanonicalTileID
  layers : List RenderLayer
  bearing : Frac
  pixelsToTileUnits : Frac

/-- The filter rejection test of `addFeature`:
`options.filter && !(*options.filter)(EvaluationContext{zoom, feature})`. -/
def filterRejects (options : RenderedQueryOptions) (zoom : Nat)
    (gtf : GTFeature) : Bool :=
  match options.filter with
  | some flt => !(flt zoom gtf)
  | none => false

/-- The loop of `FeatureIndex::addFeature` over the bucket's layer
identifiers.  The lazily cached feature is modelled by the pure
`resolveFeature` (same value at every use). -/
def addFeatureLoop (ctx : QueryCtx) (f : IndexedSubfeature) :
    List String → ResultMap → Except AddErr ResultMap
  | [], result => .ok result
  | layerID :: rest, result =>
    match getRenderLayer ctx.layers layerID with
    | none => addFeatureLoop ctx f rest result
    | some renderLayer =>
      match resolveFeature ctx.td f with
      | none => .error .resolveFailed
      | some gtf =>
        if !renderLayer.isSymbol
            && !(renderLayer.queryIntersectsFeature ctx.queryGeometry gtf
                  ctx.tileID.z ctx.bearing ctx.pixelsToTileUnits) then
          addFeatureLoop ctx f rest result
        else if filterRejects ctx.options ctx.tileID.z gtf then
          addFeatureLoop ctx f rest result
        else
          addFeatureLoop ctx f rest
            (appendResult result layerID (convertFeature gtf ctx.tileID))

/-- `FeatureIndex::addFeature`. -/
def addFeature (ctx : QueryCtx) (f : IndexedSubfeature) (result : ResultMap) :
    Except AddErr ResultMap :=
  match lookupBucket ctx.bucketLayerIDs f.bucketName with
  | none => .error .bucketMissing
  | some layerIDs => addFeatureLoop ctx f layerIDs result

/-- The `topDown` comparator (`a.sortIndex > b.sortIndex`), as the non-strict
sortedness relation it induces. -/
def topDown (a b : IndexedSubfeature) : Prop :=
  b.sortIndex ≤ a.sortIndex

/-- The `topDownSymbols` comparator (`a.sortIndex < b.sortIndex`), as the
non-strict sortedness relation it induces. -/
def topDownSymbols (a b : IndexedSubfeature) : Prop :=
  a.sortIndex ≤ b.sortIndex

instance : DecidableRel topDown :=
  fun a b => Nat.decLe b.sortIndex a.sortIndex

instance : DecidableRel topDownSymbols :=
  fun a b => Nat.decLe a.sortIndex b.sortIndex

instance : IsTotal IndexedSubfeature topDown :=
  ⟨fun a b => Nat.le_total b.sortIndex a.sortIndex⟩

instance : IsTrans IndexedSubfeature topDown :=
  ⟨fun _ _ _ hab hbc => Nat.le_trans hbc hab⟩

instance : IsTotal IndexedSubfeature topDownSymbols :=
  ⟨fun a b => Nat.le_total a.sortIndex b.sortIndex⟩

instance : IsTrans IndexedSubfeature topDownSymbols :=
  ⟨fun _ _ _ hab hbc => Nat.le_trans hab hbc⟩

/-- `std::sort(features, topDown)`, modelled as a sorted permutation for the
comparator (the order among equal elements is unspecified in the source). -/
def sortTopDown (l : List IndexedSubfeature) : List IndexedSubfeature :=
  l.insertionSort topDown

/-- `std::sort(symbolFeatures, topDownSymbols)`. -/
def sortTopDownSymbols (l : List IndexedSubfeature) : List IndexedSubfeature :=
  l.insertionSort topDownSymbols

/-- The grid-hit loop of `query`: skip a feature whose sort index equals the
previous one, otherwise resolve it. -/
def queryGridLoop (ctx : QueryCtx) :
    List IndexedSubfeature → Nat → ResultMap → Except AddErr ResultMap
  | [], _, result => .ok result
  | f :: rest, prev, result =>
    if f.sortIndex == prev then queryGridLoop ctx rest prev result
    else
      match addFeature ctx f result with
      | .error e => .error e
      | .ok r => queryGridLoop ctx rest f.sortIndex r

/-- The symbol-hit loop of `query`: resolve every hit, in order, with no
deduplication. -/
def querySymbolLoop (ctx : QueryCtx) :
    List IndexedSubfeature → ResultMap → Except AddErr ResultMap
  | [], result => .ok result
  | f :: rest, result =>
    match addFeature ctx f result with
    | .error e => .error e
    | .ok r => querySymbolLoop ctx rest r

/-- The additional-radius computation of `query`:
`std::min<int16_t>(util::EXTENT, additionalQueryRadius * pixelsToTileUnits)`.
The float product is narrowed to `int16_t` *before* the clamp, so the clamp
only bounds already-representable values; a tile-unit radius outside the
int16 range wraps (undefined behaviour in the source) before `min` sees it. -/
def computeAdditionalRadius (additionalQueryRadius tileSize scale : Frac) : ℤ :=
  min EXTENT (int16Narrow (fracTrunc (Frac.mul additionalQueryRadius
    (Frac.div (Frac.div (Frac.ofInt EXTENT) tileSize) scale))))

/-- The expanded grid-query box of `query`: the envelope of the query
geometry, grown by the clamped additional radius on both axes. -/
def queryBox (queryGeometry : List GPoint)
    (additionalQueryRadius tileSize scale : Frac) : GBox :=
  let additionalRadius := computeAdditionalRadius additionalQueryRadius tileSize scale
  let box := envelope queryGeometry
  ⟨⟨box.min.x - additionalRadius, box.min.y - additionalRadius⟩,
   ⟨box.max.x + additionalRadius, box.max.y + additionalRadius⟩⟩

/-- The `QueryCtx` a given `query` invocation threads through `addFeature`;
`pixelsToTileUnits = util::EXTENT / tileSize / scale`. -/
def queryCtx (fi : FeatureIndex) (td : TileData) (queryGeometry : List GPoint)
    (queryOptions : RenderedQueryOptions) (tileID : UnwrappedTileID)
    (layers : List RenderLayer) (bearing tileSize scale : Frac) : QueryCtx :=
  ⟨td, fi.bucketLayerIDs, queryGeometry, queryOptions, tileID.canonical,
   layers, bearing, Frac.div (Frac.div (Frac.ofInt EXTENT) tileSize) scale⟩

/-- `FeatureIndex::query`. -/
def query (fi : FeatureIndex) (result : ResultMap) (queryGeometry : List GPoint)
    (bearing tileSize scale : Frac) (queryOptions : RenderedQueryOptions)
    (tileID : UnwrappedTileID) (sourceID : String) (layers : List RenderLayer)
    (collisionIndex : CollisionIndex) (additionalQueryRadius : Frac) :
    Except AddErr ResultMap :=
  match fi.tileData with
  | none => .ok result
  | some td =>
    let ctx : QueryCtx := queryCtx fi td queryGeometry queryOptions tileID layers bearing tileSize scale
    let features := gridQuery fi.grid (queryBox queryGeometry additionalQueryRadius tileSize scale)
    match queryGridLoop ctx (sortTopDown features) USIZE_MAX result with
    | .error e => .error e
    | .ok r1 =>
      querySymbolLoop ctx (sortTopDownSymbols (collisionIndex queryGeometry tileID sourceID)) r1

/-- `style::TranslateAnchorType`. -/
inductive TranslateAnchorType where
  | map
  | viewport
deriving DecidableEq, Repr

/-- Modelled from the spec: `util::rotate` (in `util/math.hpp`, not part of
`feature_index.cpp`) rotates a point by an angle; here the angle is given by
its cosine and sine, the components converted back to integers by
truncation. -/
def rotatePoint (p : GPoint) (c s : Frac) : GPoint :=
  ⟨fracTrunc (Frac.sub (Frac.mul c (Frac.ofInt p.x)) (Frac.mul s (Frac.ofInt p.y))),
   fracTrunc (Frac.add (Frac.mul s (Frac.ofInt p.x)) (Frac.mul c (Frac.ofInt p.y)))⟩

/-- `FeatureIndex::translateQueryGeometry`.  The rotation angle `-bearing` is
represented by its cosine and sine `(cosNegBearing, sinNegBearing)`. -/
def translateQueryGeometry (queryGeometry : List GPoint) (translate : Frac × Frac)
    (anchorType : TranslateAnchorType) (cosNegBearing sinNegBearing : Frac)
    (pixelsToTileUnits : Frac) : Option (List GPoint) :=
  if translate.1.num = 0 ∧ translate.2.num = 0 then
    none
  else
    let base : GPoint :=
      ⟨fracTrunc (Frac.mul translate.1 pixelsToTileUnits),
       fracTrunc (Frac.mul translate.2 pixelsToTileUnits)⟩
    let translateVec : GPoint :=
      if anchorType = TranslateAnchorType.viewport then
        rotatePoint base cosNegBearing sinNegBearing
      else base
    some (queryGeometry.map (fun p => ⟨p.x - translateVec.x, p.y - translateVec.y⟩))

/-! ### Specification-side helper definitions -/

/-- The deduplication performed by the grid-hit loop, in isolation: drop every
entry whose sort index equals the previously kept one. -/
def dedupBySortIndex : List IndexedSubfeature → Nat → List IndexedSubfeature
  | [], _ => []
  | f :: rest, prev =>
    if f.sortIndex == prev then dedupBySortIndex rest prev
    else f :: dedupBySortIndex rest f.sortIndex

/-- Strictly descending sort-index order. -/
def strictTopDown (a b : IndexedSubfeature) : Prop :=
  b.sortIndex < a.sortIndex

instance : IsTrans IndexedSubfeature strictTopDown :=
  ⟨fun _ _ _ hab hbc => Nat.lt_trans hbc hab⟩

/-- The features `addFeature` appends under layer key `L` while walking the
given bucket layer-identifier list (meaningful when the walk succeeds). -/
def contribLoop (ctx : QueryCtx) (f : IndexedSubfeature) (L : String) :
    List String → List Feature
  | [] => []
  | layerID :: rest =>
    match getRenderLayer ctx.layers layerID with
    | none => contribLoop ctx f L rest
    | some renderLayer =>
      match resolveFeature ctx.td f with
      | none => []
      | some gtf =>
        if !renderLayer.isSymbol
            && !(renderLayer.queryIntersectsFeature ctx.queryGeometry gtf
                  ctx.tileID.z ctx.bearing ctx.pixelsToTileUnits) then
          contribLoop ctx f L rest
        else if filterRejects ctx.options ctx.tileID.z gtf then
          contribLoop ctx f L rest
        else
          (if layerID == L then [convertFeature gtf ctx.tileID] else [])
            ++ contribLoop ctx f L rest

/-- The features one resolved `IndexedSubfeature` contributes to layer `L`. -/
def featureContribL (ctx : QueryCtx) (f : IndexedSubfeature) (L : String) :
    List Feature :=
  match lookupBucket ctx.bucketLayerIDs f.bucketName with
  | none => []
  | some layerIDs => contribLoop ctx f L layerIDs

/-- The grid entries one `insert` call creates: one per ring, with
consecutively increasing sort indices starting at `start`. -/
def ringEntries (index : Nat) (sourceLayerName bucketName : String) :
    Nat → List (List GPoint) → List (IndexedSubfeature × GBox)
  | _, [] => []
  | start, ring :: rest =>
    (⟨index, sourceLayerName, bucketName, start⟩, envelope ring)
      :: ringEntries index sourceLayerName bucketName (start + 1) rest

/-- Invariant of a `FeatureIndex`: every stored sort index is below the
counter, and stored sort indices are pairwise distinct. -/
def WellIndexed (fi : FeatureIndex) : Prop :=
  (∀ e ∈ fi.grid, e.1.sortIndex < fi.sortIndex) ∧
  fi.grid.Pairwise (fun a b => a.1.sortIndex ≠ b.1.sortIndex)

/-- Whether the result mapping holds an entry for key `k`. -/
def keyMem (r : ResultMap) (k : String) : Bool :=
  r.any (fun p => p.1 == k)

/-- `r'` extends `r`: every key of `r` is still present, and every per-layer
sequence of `r` is an initial segment of the corresponding sequence of `r'`
(the mapping has only been appended to). -/
def ResultExtends (r r' : ResultMap) : Prop :=
  (∀ L, ∃ t, lookupResult r' L = lookupResult r L ++ t) ∧
  (∀ k, keyMem r k = true → keyMem r' k = true)

/-- The grid-hit list `query` actually resolves: the grid query results,
sorted top-down, with consecutive equal sort indices dropped. -/
def processedGridHits (fi : FeatureIndex) (qg : List GPoint)
    (aqr ts sc : Frac) : List IndexedSubfeature :=
  dedupBySortIndex (sortTopDown (gridQuery fi.grid (queryBox qg aqr ts sc))) USIZE_MAX

/-! ### Concrete fixtures for instantiating the theorems -/

/-- Shorthand for integral float values in concrete instances. -/
def fr (n : ℤ) : Frac :=
  Frac.ofInt n

/-- A one-layer, one-feature tile. -/
def tdPoi : TileData :=
  [("poi", [⟨0⟩])]

/-- An index over `tdPoi` holding one grid entry (feature 0 of source layer
"poi" in bucket "poi-bucket", sort index 0, envelope the point (100,100)),
with the bucket mapped to layer "poi-layer". -/
def fiPoi : FeatureIndex :=
  ⟨[(⟨0, "poi", "poi-bucket", 0⟩, ⟨⟨100, 100⟩, ⟨100, 100⟩⟩)], 1,
   [("poi-bucket", ["poi-layer"])], some tdPoi⟩

/-- A non-symbol render layer accepting every intersection test. -/
def poiLayer : RenderLayer :=
  ⟨"poi-layer", false, fun _ _ _ _ _ => true⟩

/-- Query options with no filter. -/
def noFilter : RenderedQueryOptions :=
  ⟨none⟩

/-- The zero tile id. -/
def tid0 : UnwrappedTileID :=
  ⟨0, ⟨0, 0, 0⟩⟩

/-- A collision index returning no symbol hits. -/
def noSymbols : CollisionIndex :=
  fun _ _ _ => []

/-- A two-feature tile for the duplicate-sort-index instances. -/
def tdPoi2 : TileData :=
  [("poi", [⟨0⟩, ⟨1⟩])]

/-- An index whose grid holds two entries sharing sort index 5 (features 0
and 1) and a third entry with sort index 3 (feature 1), all with the same
envelope, bucket "poi-bucket" mapped to "poi-layer". -/
def fiDup : FeatureIndex :=
  ⟨[(⟨0, "poi", "poi-bucket", 5⟩, ⟨⟨100, 100⟩, ⟨100, 100⟩⟩),
    (⟨1, "poi", "poi-bucket", 5⟩, ⟨⟨100, 100⟩, ⟨100, 100⟩⟩),
    (⟨1, "poi", "poi-bucket", 3⟩, ⟨⟨100, 100⟩, ⟨100, 100⟩⟩)], 6,
   [("poi-bucket", ["poi-layer"])], some tdPoi2⟩

/-- A one-symbol-feature tile. -/
def tdSym : TileData :=
  [("sl", [⟨7⟩, ⟨8⟩])]

/-- A symbol render layer accepting everything. -/
def symLayer : RenderLayer :=
  ⟨"symL", true, fun _ _ _ _ _ => true⟩

/-- An index with an empty grid over `tdSym`, bucket "b" mapped to "symL". -/
def fiSym : FeatureIndex :=
  ⟨[], 0, [("b", ["symL"])], some tdSym⟩

/-- A collision index returning two symbol hits that share sort index 5. -/
def dupSymbols : CollisionIndex :=
  fun _ _ _ => [⟨0, "sl", "b", 5⟩, ⟨0, "sl", "b", 5⟩]

/-- A collision index returning two symbol hits out of ascending order. -/
def twoSymbols : CollisionIndex :=
  fun _ _ _ => [⟨0, "sl", "b", 5⟩, ⟨1, "sl", "b", 3⟩]

/-- An index over `tdPoi` whose single grid entry sits at (5000, 5000): a
query at the origin reaches it with additional radius 8192 but not with
additional radius 0. -/
def fiFar : FeatureIndex :=
  ⟨[(⟨0, "poi", "poi-bucket", 0⟩, ⟨⟨5000, 5000⟩, ⟨5000, 5000⟩⟩)], 1,
   [("poi-bucket", ["poi-layer"])], some tdPoi⟩

/-! ### Basic lemmas -/

theorem fracTrunc_ofInt (n : ℤ) : fracTrunc (Frac.ofInt n) = n := by
  simp [fracTrunc, Frac.ofInt]

theorem int16Narrow_eq_self {n : ℤ} (h1 : INT16_MIN ≤ n) (h2 : n ≤ INT16_MAX) :
    int16Narrow n = n := by
  simp only [int16Narrow, INT16_MIN, INT16_MAX] at *
  omega

theorem lookupResult_nil (L : String) : lookupResult [] L = [] := rfl

theorem lookupResult_cons (p : String × List Feature) (t : ResultMap) (L : String) :
    lookupResult (p :: t) L = if p.1 == L then p.2 else lookupResult t L := by
  by_cases h : p.1 == L <;> simp [lookupResult, List.find?, h]

theorem lookupResult_appendResult (r : ResultMap) (lid L : String) (f : Feature) :
    lookupResult (appendResult r lid f) L =
      lookupResult r L ++ (if lid == L then [f] else []) := by
  induction r with
  | nil =>
    by_cases h : lid = L
    · simp [appendResult, lookupResult, List.find?, h]
    · have hb : (lid == L) = false := by simp [h]
      simp [appendResult, lookupResult, List.find?, hb]
  | cons p t ih =>
    by_cases h : p.1 = lid
    · subst h
      simp only [appendResult, beq_self_eq_true, if_true]
      by_cases h2 : p.1 = L <;> simp [lookupResult_cons, h2]
    · have hb : (p.1 == lid) = false := by simp [h]
      simp only [appendResult, hb, Bool.false_eq_true, if_false]
      by_cases h2 : p.1 = L
      · subst h2
        have hLlid : (lid == p.1) = false := by
          simp only [beq_eq_false_iff_ne, ne_eq]
          exact fun hc => h hc.symm
        simp [lookupResult_cons, hLlid]
      · simp [lookupResult_cons, h2, ih]

theorem keyMem_nil (k : String) : keyMem [] k = false := rfl

theorem keyMem_cons (p : String × List Feature) (t : ResultMap) (k : String) :
    keyMem (p :: t) k = ((p.1 == k) || keyMem t k) := by
  simp [keyMem]

theorem keyMem_appendResult (r : ResultMap) (lid k : String) (f : Feature) :
    keyMem (appendResult r lid f) k = (keyMem r k || (lid == k)) := by
  induction r with
  | nil => simp [appendResult, keyMem]
  | cons p t ih =>
    by_cases h : p.1 = lid
    · subst h
      simp only [appendResult, beq_self_eq_true, if_true]
      rw [keyMem_cons, keyMem_cons]
      cases hpk : (p.1 == k) <;> cases hm : keyMem t k <;> simp [hpk, hm]
    · have hb : (p.1 == lid) = false := by simp [h]
      simp only [appendResult, hb, Bool.false_eq_true, if_false]
      rw [keyMem_cons, keyMem_cons, ih]
      cases hpk : (p.1 == k) <;> cases hm : keyMem t k <;> simp

theorem lookupBucket_mapAssign_same (m : List (String × List String))
    (k : String) (v : List String) :
    lookupBucket (mapAssign m k v) k = some v := by
  induction m with
  | nil => simp [mapAssign, lookupBucket, List.find?]
  | cons p t ih =>
    by_cases h : p.1 = k
    · simp [mapAssign, h, lookupBucket, List.find?]
    · have hb : (p.1 == k) = false := by simp [h]
      simp only [mapAssign, hb, Bool.false_eq_true, if_false]
      simpa [lookupBucket, List.find?, hb] using ih

theorem mapAssign_idem (m : List (String × List String)) (k : String)
    (v : List String) :
    mapAssign (mapAssign m k v) k v = mapAssign m k v := by
  induction m with
  | nil => simp [mapAssign]
  | cons p t ih =>
    by_cases h : p.1 = k
    · simp [mapAssign, h]
    · have hb : (p.1 == k) = false := by simp [h]
      simp [mapAssign, hb, ih]

theorem mapAssign_last (m : List (String × List String)) (k : String)
    (v1 v2 : List String) :
    mapAssign (mapAssign m k v1) k v2 = mapAssign m k v2 := by
  induction m with
  | nil => simp [mapAssign]
  | cons p t ih =>
    by_cases h : p.1 = k
    · simp [mapAssign, h]
    · have hb : (p.1 == k) = false := by simp [h]
      simp [mapAssign, hb, ih]

/-! ### Sorting lemmas -/

theorem sortTopDown_pairwise (l : List IndexedSubfeature) :
    (sortTopDown l).Pairwise topDown :=
  List.sorted_insertionSort topDown l

theorem sortTopDown_perm (l : List IndexedSubfeature) :
    (sortTopDown l).Perm l :=
  List.perm_insertionSort topDown l

theorem sortTopDownSymbols_pairwise (l : List IndexedSubfeature) :
    (sortTopDownSymbols l).Pairwise topDownSymbols :=
  List.sorted_insertionSort topDownSymbols l

theorem sortTopDownSymbols_perm (l : List IndexedSubfeature) :
    (sortTopDownSymbols l).Perm l :=
  List.perm_insertionSort topDownSymbols l

theorem dedupBySortIndex_subset {l : List IndexedSubfeature} {prev : Nat}
    {f : IndexedSubfeature} (h : f ∈ dedupBySortIndex l prev) : f ∈ l := by
  induction l generalizing prev with
  | nil => simp [dedupBySortIndex] at h
  | cons g rest ih =>
    by_cases hg : g.sortIndex = prev
    · rw [show dedupBySortIndex (g :: rest) prev = dedupBySortIndex rest prev by
        simp [dedupBySortIndex, hg]] at h
      exact List.mem_cons_of_mem _ (ih h)
    · have hb : (g.sortIndex == prev) = false := by simp [hg]
      rw [show dedupBySortIndex (g :: rest) prev
            = g :: dedupBySortIndex rest g.sortIndex by
          simp [dedupBySortIndex, hb]] at h
      rcases List.mem_cons.mp h with h | h
      · simp [h]
      · exact List.mem_cons_of_mem _ (ih h)

theorem dedupBySortIndex_head {l : List IndexedSubfeature} {prev : Nat}
    {h : IndexedSubfeature} {rest : List IndexedSubfeature}
    (he : dedupBySortIndex l prev = h :: rest) :
    h.sortIndex ≠ prev ∧ h ∈ l := by
  induction l generalizing prev with
  | nil => simp [dedupBySortIndex] at he
  | cons g tail ih =>
    by_cases hg : g.sortIndex = prev
    · rw [show dedupBySortIndex (g :: tail) prev = dedupBySortIndex tail prev by
        simp [dedupBySortIndex, hg]] at he
      obtain ⟨hne, hm⟩ := ih he
      exact ⟨hne, List.mem_cons_of_mem _ hm⟩
    · have hb : (g.sortIndex == prev) = false := by simp [hg]
      rw [show dedupBySortIndex (g :: tail) prev
            = g :: dedupBySortIndex tail g.sortIndex by
          simp [dedupBySortIndex, hb]] at he
      injection he with h1 _
      subst h1
      exact ⟨hg, by simp⟩

theorem dedupBySortIndex_chain {l : List IndexedSubfeature} (prev : Nat)
    (h : l.Pairwise topDown) :
    (dedupBySortIndex l prev).Chain' strictTopDown := by
  induction l generalizing prev with
  | nil => simp [dedupBySortIndex]
  | cons g rest ih =>
    have hrest : rest.Pairwise topDown := (List.pairwise_cons.mp h).2
    have hrel : ∀ x ∈ rest, topDown g x := (List.pairwise_cons.mp h).1
    by_cases hg : g.sortIndex = prev
    · rw [show dedupBySortIndex (g :: rest) prev = dedupBySortIndex rest prev by
        simp [dedupBySortIndex, hg]]
      exact ih prev hrest
    · have hb : (g.sortIndex == prev) = false := by simp [hg]
      rw [show dedupBySortIndex (g :: rest) prev
            = g :: dedupBySortIndex rest g.sortIndex by
          simp [dedupBySortIndex, hb]]
      rw [List.chain'_cons']
      refine ⟨?_, ih g.sortIndex hrest⟩
      intro c hc
      have hd : ∃ tail0, dedupBySortIndex rest g.sortIndex = c :: tail0 := by
        cases hdd : dedupBySortIndex rest g.sortIndex with
        | nil => rw [hdd] at hc; simp at hc
        | cons c0 tail0 =>
          rw [hdd] at hc
          simp only [List.head?_cons, Option.mem_def, Option.some.injEq] at hc
          subst hc
          exact ⟨tail0, rfl⟩
      obtain ⟨tail0, hd⟩ := hd
      obtain ⟨hne, hm⟩ := dedupBySortIndex_head hd
      exact lt_of_le_of_ne (hrel c hm) hne



/-! ### Loop characterisation lemmas -/

theorem addFeatureLoop_ok {ctx : QueryCtx} {f : IndexedSubfeature} :
    ∀ {ids : List String} {r r' : ResultMap},
      addFeatureLoop ctx f ids r = .ok r' →
      ∀ L, lookupResult r' L = lookupResult r L ++ contribLoop ctx f L ids := by
  intro ids
  induction ids with
  | nil =>
    intro r r' h L
    simp only [addFeatureLoop, Except.ok.injEq] at h
    subst h
    simp [contribLoop]
  | cons layerID rest ih =>
    intro r r' h L
    simp only [addFeatureLoop] at h
    simp only [contribLoop]
    cases hrl : getRenderLayer ctx.layers layerID with
    | none =>
      simp only [hrl] at h ⊢
      simpa using ih h L
    | some rl =>
      simp only [hrl] at h ⊢
      cases hres : resolveFeature ctx.td f with
      | none =>
        simp only [hres] at h
        simp at h
      | some gtf =>
        simp only [hres] at h ⊢
        by_cases hsym : (!rl.isSymbol
            && !(rl.queryIntersectsFeature ctx.queryGeometry gtf
                  ctx.tileID.z ctx.bearing ctx.pixelsToTileUnits)) = true
        · rw [if_pos hsym] at h
          rw [if_pos hsym]
          exact ih h L
        · rw [if_neg hsym] at h
          rw [if_neg hsym]
          by_cases hflt : filterRejects ctx.options ctx.tileID.z gtf = true
          · rw [if_pos hflt] at h
            rw [if_pos hflt]
            exact ih h L
          · rw [if_neg hflt] at h
            rw [if_neg hflt]
            rw [ih h L, lookupResult_appendResult, List.append_assoc]

theorem addFeature_ok {ctx : QueryCtx} {f : IndexedSubfeature}
    {r r' : ResultMap} (h : addFeature ctx f r = .ok r') :
    ∀ L, lookupResult r' L = lookupResult r L ++ featureContribL ctx f L := by
  intro L
  unfold addFeature at h
  cases hlb : lookupBucket ctx.bucketLayerIDs f.bucketName with
  | none => rw [hlb] at h; simp at h
  | some ids =>
    rw [hlb] at h
    simpa [featureContribL, hlb] using addFeatureLoop_ok h L

theorem querySymbolLoop_ok {ctx : QueryCtx} :
    ∀ {fs : List IndexedSubfeature} {r r' : ResultMap},
      querySymbolLoop ctx fs r = .ok r' →
      ∀ L, lookupResult r' L =
        lookupResult r L ++ (fs.map (fun f => featureContribL ctx f L)).flatten := by
  intro fs
  induction fs with
  | nil =>
    intro r r' h L
    simp only [querySymbolLoop, Except.ok.injEq] at h
    subst h
    simp
  | cons f rest ih =>
    intro r r' h L
    simp only [querySymbolLoop] at h
    cases haf : addFeature ctx f r with
    | error e => rw [haf] at h; simp at h
    | ok r1 =>
      rw [haf] at h
      rw [ih h L, addFeature_ok haf L, List.append_assoc]
      simp

theorem queryGridLoop_eq {ctx : QueryCtx} :
    ∀ (l : List IndexedSubfeature) (prev : Nat) (r : ResultMap),
      queryGridLoop ctx l prev r = querySymbolLoop ctx (dedupBySortIndex l prev) r := by
  intro l
  induction l with
  | nil => intro prev r; rfl
  | cons f rest ih =>
    intro prev r
    by_cases hs : (f.sortIndex == prev) = true
    · simp only [queryGridLoop, dedupBySortIndex, hs, if_true]
      exact ih prev r
    · simp only [queryGridLoop, dedupBySortIndex, hs, Bool.false_eq_true, if_false,
        querySymbolLoop]
      cases haf : addFeature ctx f r with
      | error e => rfl
      | ok r1 => exact ih f.sortIndex r1

/-! ### Extension lemmas -/

theorem ResultExtends_refl (r : ResultMap) : ResultExtends r r :=
  ⟨fun L => ⟨[], by simp⟩, fun _ h => h⟩

theorem ResultExtends_trans {r1 r2 r3 : ResultMap}
    (h12 : ResultExtends r1 r2) (h23 : ResultExtends r2 r3) :
    ResultExtends r1 r3 := by
  refine ⟨fun L => ?_, fun k hk => h23.2 k (h12.2 k hk)⟩
  obtain ⟨t1, ht1⟩ := h12.1 L
  obtain ⟨t2, ht2⟩ := h23.1 L
  exact ⟨t1 ++ t2, by rw [ht2, ht1, List.append_assoc]⟩

theorem appendResult_extends (r : ResultMap) (lid : String) (f : Feature) :
    ResultExtends r (appendResult r lid f) := by
  constructor
  · intro L
    exact ⟨if lid == L then [f] else [], lookupResult_appendResult r lid L f⟩
  · intro k hk
    rw [keyMem_appendResult, hk]
    simp

theorem addFeatureLoop_extends {ctx : QueryCtx} {f : IndexedSubfeature} :
    ∀ {ids : List String} {r r' : ResultMap},
      addFeatureLoop ctx f ids r = .ok r' → ResultExtends r r' := by
  intro ids
  induction ids with
  | nil =>
    intro r r' h
    simp only [addFeatureLoop, Except.ok.injEq] at h
    subst h
    exact ResultExtends_refl r
  | cons layerID rest ih =>
    intro r r' h
    simp only [addFeatureLoop] at h
    cases hrl : getRenderLayer ctx.layers layerID with
    | none => rw [hrl] at h; exact ih h
    | some rl =>
      simp only [hrl] at h
      cases hres : resolveFeature ctx.td f with
      | none => rw [hres] at h; simp at h
      | some gtf =>
        simp only [hres] at h
        by_cases hsym : (!rl.isSymbol
            && !(rl.queryIntersectsFeature ctx.queryGeometry gtf
                  ctx.tileID.z ctx.bearing ctx.pixelsToTileUnits)) = true
        · rw [if_pos hsym] at h; exact ih h
        · rw [if_neg hsym] at h
          by_cases hflt : filterRejects ctx.options ctx.tileID.z gtf = true
          · rw [if_pos hflt] at h; exact ih h
          · rw [if_neg hflt] at h
            exact ResultExtends_trans
              (appendResult_extends r layerID (convertFeature gtf ctx.tileID)) (ih h)

theorem addFeature_extends {ctx : QueryCtx} {f : IndexedSubfeature}
    {r r' : ResultMap} (h : addFeature ctx f r = .ok r') : ResultExtends r r' := by
  unfold addFeature at h
  cases hlb : lookupBucket ctx.bucketLayerIDs f.bucketName with
  | none => rw [hlb] at h; simp at h
  | some ids => rw [hlb] at h; exact addFeatureLoop_extends h

theorem querySymbolLoop_extends {ctx : QueryCtx} :
    ∀ {fs : List IndexedSubfeature} {r r' : ResultMap},
      querySymbolLoop ctx fs r = .ok r' → ResultExtends r r' := by
  intro fs
  induction fs with
  | nil =>
    intro r r' h
    simp only [querySymbolLoop, Except.ok.injEq] at h
    subst h
    exact ResultExtends_refl r
  | cons f rest ih =>
    intro r r' h
    simp only [querySymbolLoop] at h
    cases haf : addFeature ctx f r with
    | error e => rw [haf] at h; simp at h
    | ok r1 =>
      rw [haf] at h
      exact ResultExtends_trans (addFeature_extends haf) (ih h)

/-! ### Error-channel lemmas -/

theorem addFeatureLoop_ne_bucketMissing {ctx : QueryCtx} {f : IndexedSubfeature} :
    ∀ {ids : List String} {r : ResultMap},
      addFeatureLoop ctx f ids r ≠ .error .bucketMissing := by
  intro ids
  induction ids with
  | nil => intro r h; simp [addFeatureLoop] at h
  | cons layerID rest ih =>
    intro r h
    simp only [addFeatureLoop] at h
    cases hrl : getRenderLayer ctx.layers layerID with
    | none => rw [hrl] at h; exact ih h
    | some rl =>
      simp only [hrl] at h
      cases hres : resolveFeature ctx.td f with
      | none => rw [hres] at h; simp at h
      | some gtf =>
        simp only [hres] at h
        by_cases hsym : (!rl.isSymbol
            && !(rl.queryIntersectsFeature ctx.queryGeometry gtf
                  ctx.tileID.z ctx.bearing ctx.pixelsToTileUnits)) = true
        · rw [if_pos hsym] at h; exact ih h
        · rw [if_neg hsym] at h
          by_cases hflt : filterRejects ctx.options ctx.tileID.z gtf = true
          · rw [if_pos hflt] at h; exact ih h
          · rw [if_neg hflt] at h; exact ih h

theorem addFeature_ne_bucketMissing {ctx : QueryCtx} {f : IndexedSubfeature}
    {r : ResultMap}
    (hlb : (lookupBucket ctx.bucketLayerIDs f.bucketName).isSome = true) :
    addFeature ctx f r ≠ .error .bucketMissing := by
  unfold addFeature
  cases hl : lookupBucket ctx.bucketLayerIDs f.bucketName with
  | none => rw [hl] at hlb; simp at hlb
  | some ids => exact addFeatureLoop_ne_bucketMissing

theorem querySymbolLoop_ne_bucketMissing {ctx : QueryCtx} :
    ∀ {fs : List IndexedSubfeature} {r : ResultMap},
      (∀ f ∈ fs, (lookupBucket ctx.bucketLayerIDs f.bucketName).isSome = true) →
      querySymbolLoop ctx fs r ≠ .error .bucketMissing := by
  intro fs
  induction fs with
  | nil => intro r _ h; simp [querySymbolLoop] at h
  | cons f rest ih =>
    intro r hreg h
    simp only [querySymbolLoop] at h
    cases haf : addFeature ctx f r with
    | error e =>
      rw [haf] at h
      simp only [Except.error.injEq] at h
      subst h
      exact addFeature_ne_bucketMissing (hreg f (by simp)) haf
    | ok r1 =>
      rw [haf] at h
      exact ih (fun g hg => hreg g (List.mem_cons_of_mem _ hg)) h

theorem queryGridLoop_extends {ctx : QueryCtx} {l : List IndexedSubfeature}
    {prev : Nat} {r r' : ResultMap}
    (h : queryGridLoop ctx l prev r = .ok r') : ResultExtends r r' := by
  rw [queryGridLoop_eq] at h
  exact querySymbolLoop_extends h

theorem queryGridLoop_ne_bucketMissing {ctx : QueryCtx}
    {l : List IndexedSubfeature} {prev : Nat} {r : ResultMap}
    (hreg : ∀ f ∈ l, (lookupBucket ctx.bucketLayerIDs f.bucketName).isSome = true) :
    queryGridLoop ctx l prev r ≠ .error .bucketMissing := by
  rw [queryGridLoop_eq]
  exact querySymbolLoop_ne_bucketMissing (fun f hf => hreg f (dedupBySortIndex_subset hf))

/-! ### Query-level lemmas -/

theorem query_none {fi : FeatureIndex} {r : ResultMap} {qg : List GPoint}
    {bearing ts sc : Frac} {opts : RenderedQueryOptions} {tid : UnwrappedTileID}
    {sid : String} {layers : List RenderLayer} {ci : CollisionIndex} {aqr : Frac}
    (htd : fi.tileData = none) :
    query fi r qg bearing ts sc opts tid sid layers ci aqr = .ok r := by
  simp [query, htd]

theorem query_some {fi : FeatureIndex} {td : TileData} {r : ResultMap}
    {qg : List GPoint} {bearing ts sc : Frac} {opts : RenderedQueryOptions}
    {tid : UnwrappedTileID} {sid : String} {layers : List RenderLayer}
    {ci : CollisionIndex} {aqr : Frac} (htd : fi.tileData = some td) :
    query fi r qg bearing ts sc opts tid sid layers ci aqr =
      match queryGridLoop (queryCtx fi td qg opts tid layers bearing ts sc)
          (sortTopDown (gridQuery fi.grid (queryBox qg aqr ts sc))) USIZE_MAX r with
      | .error e => .error e
      | .ok r1 =>
        querySymbolLoop (queryCtx fi td qg opts tid layers bearing ts sc)
          (sortTopDownSymbols (ci qg tid sid)) r1 := by
  simp only [query, htd]

theorem query_extends {fi : FeatureIndex} {r r' : ResultMap} {qg : List GPoint}
    {bearing ts sc : Frac} {opts : RenderedQueryOptions} {tid : UnwrappedTileID}
    {sid : String} {layers : List RenderLayer} {ci : CollisionIndex} {aqr : Frac}
    (h : query fi r qg bearing ts sc opts tid sid layers ci aqr = .ok r') :
    ResultExtends r r' := by
  cases htd : fi.tileData with
  | none =>
    rw [query_none htd] at h
    simp only [Except.ok.injEq] at h
    subst h
    exact ResultExtends_refl r
  | some td =>
    rw [query_some htd] at h
    cases hg : queryGridLoop (queryCtx fi td qg opts tid layers bearing ts sc)
        (sortTopDown (gridQuery fi.grid (queryBox qg aqr ts sc))) USIZE_MAX r with
    | error e => rw [hg] at h; simp at h
    | ok r1 =>
      rw [hg] at h
      exact ResultExtends_trans (queryGridLoop_extends hg) (querySymbolLoop_extends h)

theorem query_radius_congr {fi : FeatureIndex} {r : ResultMap} {qg : List GPoint}
    {bearing ts sc : Frac} {opts : RenderedQueryOptions} {tid : UnwrappedTileID}
    {sid : String} {layers : List RenderLayer} {ci : CollisionIndex} {aqr aqr' : Frac}
    (h : computeAdditionalRadius aqr ts sc = computeAdditionalRadius aqr' ts sc) :
    query fi r qg bearing ts sc opts tid sid layers ci aqr =
      query fi r qg bearing ts sc opts tid sid layers ci aqr' := by
  have hbox : queryBox qg aqr ts sc = queryBox qg aqr' ts sc := by
    unfold queryBox
    rw [h]
  cases htd : fi.tileData with
  | none => rw [query_none htd, query_none htd]
  | some td => rw [query_some htd, query_some htd, hbox]

/-! ### Envelope bound lemmas -/

theorem foldl_expandBox_bounds :
    ∀ (qg : List GPoint) (b : GBox),
      (∀ p ∈ qg, 0 ≤ p.x ∧ p.x ≤ EXTENT ∧ 0 ≤ p.y ∧ p.y ≤ EXTENT) →
      0 ≤ b.min.x → b.min.x ≤ INT16_MAX → INT16_MIN ≤ b.max.x → b.max.x ≤ EXTENT →
      0 ≤ b.min.y → b.min.y ≤ INT16_MAX → INT16_MIN ≤ b.max.y → b.max.y ≤ EXTENT →
      0 ≤ (qg.foldl expandBox b).min.x ∧ (qg.foldl expandBox b).min.x ≤ INT16_MAX ∧
      INT16_MIN ≤ (qg.foldl expandBox b).max.x ∧ (qg.foldl expandBox b).max.x ≤ EXTENT ∧
      0 ≤ (qg.foldl expandBox b).min.y ∧ (qg.foldl expandBox b).min.y ≤ INT16_MAX ∧
      INT16_MIN ≤ (qg.foldl expandBox b).max.y ∧ (qg.foldl expandBox b).max.y ≤ EXTENT := by
  intro qg
  induction qg with
  | nil =>
    intro b _ h1 h2 h3 h4 h5 h6 h7 h8
    exact ⟨h1, h2, h3, h4, h5, h6, h7, h8⟩
  | cons p rest ih =>
    intro b hc h1 h2 h3 h4 h5 h6 h7 h8
    obtain ⟨hp1, hp2, hp3, hp4⟩ := hc p (by simp)
    have hrest : ∀ q ∈ rest, 0 ≤ q.x ∧ q.x ≤ EXTENT ∧ 0 ≤ q.y ∧ q.y ≤ EXTENT :=
      fun q hq => hc q (List.mem_cons_of_mem _ hq)
    simp only [List.foldl_cons]
    exact ih (expandBox b p) hrest
      (le_min h1 hp1) (le_trans (min_le_left _ _) h2)
      (le_trans h3 (le_max_left _ _)) (max_le h4 hp2)
      (le_min h5 hp3) (le_trans (min_le_left _ _) h6)
      (le_trans h7 (le_max_left _ _)) (max_le h8 hp4)

theorem envelope_bounds {qg : List GPoint}
    (hc : ∀ p ∈ qg, 0 ≤ p.x ∧ p.x ≤ EXTENT ∧ 0 ≤ p.y ∧ p.y ≤ EXTENT) :
    0 ≤ (envelope qg).min.x ∧ (envelope qg).min.x ≤ INT16_MAX ∧
    INT16_MIN ≤ (envelope qg).max.x ∧ (envelope qg).max.x ≤ EXTENT ∧
    0 ≤ (envelope qg).min.y ∧ (envelope qg).min.y ≤ INT16_MAX ∧
    INT16_MIN ≤ (envelope qg).max.y ∧ (envelope qg).max.y ≤ EXTENT := by
  unfold envelope
  exact foldl_expandBox_bounds qg _ hc (by decide) (by decide) (by decide)
    (by decide) (by decide) (by decide) (by decide) (by decide)

/-! ### Insertion lemmas -/

theorem ringEntries_length (index : Nat) (sl bn : String) :
    ∀ (start : Nat) (gs : List (List GPoint)),
      (ringEntries index sl bn start gs).length = gs.length := by
  intro start gs
  induction gs generalizing start with
  | nil => rfl
  | cons ring rest ih => simp [ringEntries, ih]

theorem ringEntries_sortIndices (index : Nat) (sl bn : String) :
    ∀ (start : Nat) (gs : List (List GPoint)),
      (ringEntries index sl bn start gs).map (fun e => e.1.sortIndex) =
        List.range' start gs.length := by
  intro start gs
  induction gs generalizing start with
  | nil => rfl
  | cons ring rest ih => simp [ringEntries, List.range', ih]

theorem ringEntries_mem_bounds {index : Nat} {sl bn : String} :
    ∀ {start : Nat} {gs : List (List GPoint)} {e : IndexedSubfeature × GBox},
      e ∈ ringEntries index sl bn start gs →
      start ≤ e.1.sortIndex ∧ e.1.sortIndex < start + gs.length := by
  intro start gs
  induction gs generalizing start with
  | nil => intro e h; simp [ringEntries] at h
  | cons ring rest ih =>
    intro e h
    simp only [ringEntries, List.mem_cons] at h
    rcases h with h | h
    · subst h
      simp
    · obtain ⟨h1, h2⟩ := ih h
      constructor
      · omega
      · simpa [Nat.add_assoc, Nat.add_comm 1 rest.length] using h2

theorem ringEntries_pairwise (index : Nat) (sl bn : String) :
    ∀ (start : Nat) (gs : List (List GPoint)),
      (ringEntries index sl bn start gs).Pairwise
        (fun a b => a.1.sortIndex ≠ b.1.sortIndex) := by
  intro start gs
  induction gs generalizing start with
  | nil => simp [ringEntries]
  | cons ring rest ih =>
    simp only [ringEntries, List.pairwise_cons]
    refine ⟨fun e he => ?_, ih (start + 1)⟩
    obtain ⟨h1, _⟩ := ringEntries_mem_bounds he
    omega

theorem insert_grid_eq :
    ∀ (gs : List (List GPoint)) (fi : FeatureIndex) (index : Nat) (sl bn : String),
      (insert fi gs index sl bn).grid = fi.grid ++ ringEntries index sl bn fi.sortIndex gs
      ∧ (insert fi gs index sl bn).sortIndex = fi.sortIndex + gs.length := by
  intro gs
  induction gs with
  | nil => intro fi index sl bn; simp [insert, ringEntries]
  | cons ring rest ih =>
    intro fi index sl bn
    have hstep : insert fi (ring :: rest) index sl bn
        = insert (insertRing fi index sl bn ring) rest index sl bn := rfl
    rw [hstep]
    obtain ⟨h1, h2⟩ := ih (insertRing fi index sl bn ring) index sl bn
    constructor
    · rw [h1]
      simp [insertRing, gridInsert, ringEntries, List.append_assoc]
    · rw [h2]
      have hsr : (insertRing fi index sl bn ring).sortIndex = fi.sortIndex + 1 := rfl
      rw [hsr]
      simp only [List.length_cons]
      omega

theorem insert_wellIndexed {fi : FeatureIndex} (gs : List (List GPoint))
    (index : Nat) (sl bn : String) (h : WellIndexed fi) :
    WellIndexed (insert fi gs index sl bn) := by
  obtain ⟨hgrid, hsi⟩ := insert_grid_eq gs fi index sl bn
  constructor
  · intro e he
    rw [hgrid] at he
    rw [hsi]
    rcases List.mem_append.mp he with he | he
    · exact lt_of_lt_of_le (h.1 e he) (Nat.le_add_right _ _)
    · exact (ringEntries_mem_bounds he).2
  · rw [hgrid]
    rw [List.pairwise_append]
    refine ⟨h.2, ringEntries_pairwise index sl bn fi.sortIndex gs, ?_⟩
    intro a ha b hb
    have h1 : a.1.sortIndex < fi.sortIndex := h.1 a ha
    have h2 : fi.sortIndex ≤ b.1.sortIndex := (ringEntries_mem_bounds hb).1
    omega

/-! ### Missing-layer lemmas -/

theorem contribLoop_no_layer {ctx : QueryCtx} {f : IndexedSubfeature} {L : String}
    (hmiss : getRenderLayer ctx.layers L = none) :
    ∀ ids, contribLoop ctx f L ids = [] := by
  intro ids
  induction ids with
  | nil => rfl
  | cons layerID rest ih =>
    simp only [contribLoop]
    cases hrl : getRenderLayer ctx.layers layerID with
    | none => simpa using ih
    | some rl =>
      cases hres : resolveFeature ctx.td f with
      | none => simp
      | some gtf =>
        have hLne : (layerID == L) = false := by
          by_cases hx : layerID = L
          · subst hx
            rw [hrl] at hmiss
            cases hmiss
          · simp [hx]
        by_cases hsym : (!rl.isSymbol
            && !(rl.queryIntersectsFeature ctx.queryGeometry gtf
                  ctx.tileID.z ctx.bearing ctx.pixelsToTileUnits)) = true
        · simp [hsym, ih]
        · by_cases hflt : filterRejects ctx.options ctx.tileID.z gtf = true
          · simp [hsym, hflt, ih]
          · simp [hsym, hflt, hLne, ih]

theorem addFeatureLoop_filter_missing {ctx : QueryCtx} {f : IndexedSubfeature}
    {L : String} (hmiss : getRenderLayer ctx.layers L = none) :
    ∀ (ids : List String) (r : ResultMap),
      addFeatureLoop ctx f ids r
        = addFeatureLoop ctx f (ids.filter (fun x => x != L)) r := by
  intro ids
  induction ids with
  | nil => intro r; rfl
  | cons layerID rest ih =>
    intro r
    by_cases hx : layerID = L
    · subst hx
      simp only [List.filter_cons, bne_self_eq_false, Bool.false_eq_true, if_false]
      simp only [addFeatureLoop, hmiss]
      exact ih r
    · have hkeep : (layerID != L) = true := by simp [hx]
      simp only [List.filter_cons, hkeep, if_true]
      simp only [addFeatureLoop]
      cases hrl : getRenderLayer ctx.layers layerID with
      | none =>
        simp only [hrl]
        exact ih r
      | some rl =>
        simp only [hrl]
        cases hres : resolveFeature ctx.td f with
        | none => simp [hres]
        | some gtf =>
          simp only [hres]
          by_cases hsym : (!rl.isSymbol
              && !(rl.queryIntersectsFeature ctx.queryGeometry gtf
                    ctx.tileID.z ctx.bearing ctx.pixelsToTileUnits)) = true
          · rw [if_pos hsym, if_pos hsym]
            exact ih r
          · rw [if_neg hsym, if_neg hsym]
            by_cases hflt : filterRejects ctx.options ctx.tileID.z gtf = true
            · rw [if_pos hflt, if_pos hflt]
              exact ih r
            · rw [if_neg hflt, if_neg hflt]
              exact ih (appendResult r layerID (convertFeature gtf ctx.tileID))

/-! ### Deduplicated-list distinctness -/

theorem dedupBySortIndex_sortIndices_nodup {l : List IndexedSubfeature}
    (prev : Nat) (h : l.Pairwise topDown) :
    ((dedupBySortIndex l prev).map (fun f => f.sortIndex)).Nodup := by
  have hchain := dedupBySortIndex_chain prev h
  have hpw : (dedupBySortIndex l prev).Pairwise strictTopDown :=
    (List.chain'_iff_pairwise).mp hchain
  have hne : (dedupBySortIndex l prev).Pairwise
      (fun a b => a.sortIndex ≠ b.sortIndex) :=
    hpw.imp (fun hab => (Nat.ne_of_lt hab).symm)
  exact List.Pairwise.map _ (fun a b hab => hab) hne

/-! ### Claim theorems -/

/-- C4: for every `query` on a `FeatureIndex` whose tile data is absent, the
query returns without error and the caller-supplied result mapping comes back
unchanged — no grid lookup, no collision lookup and no feature resolution is
performed. -/
theorem c4_absent_data_yields_empty {fi : FeatureIndex} {r : ResultMap}
    {qg : List GPoint} {bearing ts sc : Frac} {opts : RenderedQueryOptions}
    {tid : UnwrappedTileID} {sid : String} {layers : List RenderLayer}
    {ci : CollisionIndex} {aqr : Frac} (htd : fi.tileData = none) :
    query fi r qg bearing ts sc opts tid sid layers ci aqr = .ok r :=
  query_none htd

theorem c4_absent_data_yields_empty_witness :
    (FeatureIndex.mk [] 0 [] none).tileData = none ∧
    query (FeatureIndex.mk [] 0 [] none) [] [] (fr 0) (fr 512)
      (fr 1) noFilter tid0 "s" [] noSymbols (fr 0) = .ok [] :=
  ⟨rfl, c4_absent_data_yields_empty rfl⟩

/-- C10: `query` accumulates into the caller-supplied result mapping rather
than replacing it: every key and every `Feature` already present is still
present afterwards in the same per-layer order, the call only appends to
per-layer sequences, and with absent tile data the mapping is left exactly
unchanged. -/
theorem c10_query_accumulates {fi : FeatureIndex} {r r' : ResultMap}
    {qg : List GPoint} {bearing ts sc : Frac} {opts : RenderedQueryOptions}
    {tid : UnwrappedTileID} {sid : String} {layers : List RenderLayer}
    {ci : CollisionIndex} {aqr : Frac}
    (h : query fi r qg bearing ts sc opts tid sid layers ci aqr = .ok r') :
    ResultExtends r r' ∧ (fi.tileData = none → r' = r) := by
  refine ⟨query_extends h, fun htd => ?_⟩
  rw [query_none htd] at h
  injection h with h
  exact h.symm

theorem c10_query_accumulates_witness :
    query fiPoi [("pre", [⟨⟨9⟩, ⟨0, 0, 0⟩⟩])] [⟨99, 99⟩, ⟨101, 101⟩]
      (fr 0) (fr 512) (fr 1) noFilter tid0 "s" [poiLayer] noSymbols (fr 0)
      = .ok [("pre", [⟨⟨9⟩, ⟨0, 0, 0⟩⟩]), ("poi-layer", [⟨⟨0⟩, ⟨0, 0, 0⟩⟩])]
    ∧ ResultExtends [("pre", [⟨⟨9⟩, ⟨0, 0, 0⟩⟩])]
        [("pre", [⟨⟨9⟩, ⟨0, 0, 0⟩⟩]), ("poi-layer", [⟨⟨0⟩, ⟨0, 0, 0⟩⟩])] :=
  have h : query fiPoi [("pre", [⟨⟨9⟩, ⟨0, 0, 0⟩⟩])] [⟨99, 99⟩, ⟨101, 101⟩]
      (fr 0) (fr 512) (fr 1) noFilter tid0 "s" [poiLayer] noSymbols (fr 0)
      = .ok [("pre", [⟨⟨9⟩, ⟨0, 0, 0⟩⟩]), ("poi-layer", [⟨⟨0⟩, ⟨0, 0, 0⟩⟩])] := by
    decide
  ⟨h, (c10_query_accumulates h).1⟩

/-- C5: one `insert` call over `n` rings creates exactly `n` grid entries, each
carrying a freshly incremented sort index (`fi.sortIndex, fi.sortIndex+1, …`),
the counter advances by `n`, and the well-indexedness invariant (all stored
sort indices below the counter and pairwise distinct) is preserved, so entries
of distinct ring insertions always carry distinct sort indices. -/
theorem c5_insert_fresh_sort_indices (fi : FeatureIndex)
    (gs : List (List GPoint)) (index : Nat) (sl bn : String)
    (hw : WellIndexed fi) :
    (insert fi gs index sl bn).grid
        = fi.grid ++ ringEntries index sl bn fi.sortIndex gs
    ∧ (ringEntries index sl bn fi.sortIndex gs).length = gs.length
    ∧ (ringEntries index sl bn fi.sortIndex gs).map (fun e => e.1.sortIndex)
        = List.range' fi.sortIndex gs.length
    ∧ (insert fi gs index sl bn).sortIndex = fi.sortIndex + gs.length
    ∧ WellIndexed (insert fi gs index sl bn) := by
  obtain ⟨h1, h2⟩ := insert_grid_eq gs fi index sl bn
  exact ⟨h1, ringEntries_length index sl bn fi.sortIndex gs,
    ringEntries_sortIndices index sl bn fi.sortIndex gs, h2,
    insert_wellIndexed gs index sl bn hw⟩

theorem c5_insert_fresh_sort_indices_witness :
    WellIndexed ⟨[], 0, [], none⟩
    ∧ ((insert ⟨[], 0, [], none⟩ ([[⟨1, 2⟩], [⟨3, 4⟩]] : List (List GPoint)) 7 "sl" "bn").grid
          = [] ++ ringEntries 7 "sl" "bn" 0 ([[⟨1, 2⟩], [⟨3, 4⟩]] : List (List GPoint))
      ∧ (ringEntries 7 "sl" "bn" 0 ([[⟨1, 2⟩], [⟨3, 4⟩]] : List (List GPoint))).length
          = ([[⟨1, 2⟩], [⟨3, 4⟩]] : List (List GPoint)).length
      ∧ (ringEntries 7 "sl" "bn" 0 ([[⟨1, 2⟩], [⟨3, 4⟩]] : List (List GPoint))).map
            (fun e => e.1.sortIndex)
          = List.range' 0 ([[⟨1, 2⟩], [⟨3, 4⟩]] : List (List GPoint)).length
      ∧ (insert ⟨[], 0, [], none⟩ ([[⟨1, 2⟩], [⟨3, 4⟩]] : List (List GPoint)) 7 "sl" "bn").sortIndex
          = 0 + ([[⟨1, 2⟩], [⟨3, 4⟩]] : List (List GPoint)).length
      ∧ WellIndexed (insert ⟨[], 0, [], none⟩ ([[⟨1, 2⟩], [⟨3, 4⟩]] : List (List GPoint)) 7 "sl" "bn")) :=
  ⟨by constructor <;> simp [WellIndexed],
   c5_insert_fresh_sort_indices ⟨[], 0, [], none⟩ ([[⟨1, 2⟩], [⟨3, 4⟩]] : List (List GPoint)) 7 "sl" "bn"
     (by constructor <;> simp [WellIndexed])⟩

/-- C2: in `query`, the grid-index matches are sorted in descending sort-index
order and every match whose sort index equals the previous one is skipped: the
processed grid-hit list is a strictly descending chain, each sort index occurs
in it at most once (so two entries sharing a sort index are resolved only
once), and the grid phase appends to each layer exactly the contributions of
the processed hits, in that descending order. -/
theorem c2_grid_hits_descending_dedup {fi : FeatureIndex} {td : TileData}
    {r r' : ResultMap} {qg : List GPoint} {bearing ts sc : Frac}
    {opts : RenderedQueryOptions} {tid : UnwrappedTileID} {sid : String}
    {layers : List RenderLayer} {ci : CollisionIndex} {aqr : Frac}
    (htd : fi.tileData = some td)
    (hq : query fi r qg bearing ts sc opts tid sid layers ci aqr = .ok r') :
    List.Chain' strictTopDown (processedGridHits fi qg aqr ts sc)
    ∧ ((processedGridHits fi qg aqr ts sc).map (fun f => f.sortIndex)).Nodup
    ∧ ∃ r1,
        queryGridLoop (queryCtx fi td qg opts tid layers bearing ts sc)
          (sortTopDown (gridQuery fi.grid (queryBox qg aqr ts sc))) USIZE_MAX r = .ok r1
        ∧ ∀ L, lookupResult r1 L = lookupResult r L ++
            ((processedGridHits fi qg aqr ts sc).map
              (fun f => featureContribL (queryCtx fi td qg opts tid layers bearing ts sc) f L)).flatten := by
  refine ⟨dedupBySortIndex_chain _ (sortTopDown_pairwise _),
    dedupBySortIndex_sortIndices_nodup _ (sortTopDown_pairwise _), ?_⟩
  rw [query_some htd] at hq
  cases hg : queryGridLoop (queryCtx fi td qg opts tid layers bearing ts sc)
      (sortTopDown (gridQuery fi.grid (queryBox qg aqr ts sc))) USIZE_MAX r with
  | error e => rw [hg] at hq; simp at hq
  | ok r1 =>
    rw [hg] at hq
    refine ⟨r1, rfl, ?_⟩
    rw [queryGridLoop_eq] at hg
    intro L
    exact querySymbolLoop_ok hg L

theorem c2_grid_hits_descending_dedup_witness :
    fiDup.tileData = some tdPoi2
    ∧ query fiDup [] [⟨99, 99⟩, ⟨101, 101⟩] (fr 0) (fr 512) (fr 1) noFilter
        tid0 "s" [poiLayer] noSymbols (fr 0)
      = .ok [("poi-layer", [⟨⟨0⟩, ⟨0, 0, 0⟩⟩, ⟨⟨1⟩, ⟨0, 0, 0⟩⟩])]
    ∧ (processedGridHits fiDup [⟨99, 99⟩, ⟨101, 101⟩] (fr 0) (fr 512) (fr 1)).map
        (fun f => f.sortIndex) = [5, 3]
    ∧ (List.Chain' strictTopDown
        (processedGridHits fiDup [⟨99, 99⟩, ⟨101, 101⟩] (fr 0) (fr 512) (fr 1))
      ∧ ((processedGridHits fiDup [⟨99, 99⟩, ⟨101, 101⟩] (fr 0) (fr 512) (fr 1)).map
          (fun f => f.sortIndex)).Nodup
      ∧ ∃ r1,
          queryGridLoop (queryCtx fiDup tdPoi2 [⟨99, 99⟩, ⟨101, 101⟩] noFilter tid0
              [poiLayer] (fr 0) (fr 512) (fr 1))
            (sortTopDown (gridQuery fiDup.grid
              (queryBox [⟨99, 99⟩, ⟨101, 101⟩] (fr 0) (fr 512) (fr 1)))) USIZE_MAX []
            = .ok r1
          ∧ ∀ L, lookupResult r1 L = lookupResult [] L ++
              ((processedGridHits fiDup [⟨99, 99⟩, ⟨101, 101⟩] (fr 0) (fr 512) (fr 1)).map
                (fun f => featureContribL
                  (queryCtx fiDup tdPoi2 [⟨99, 99⟩, ⟨101, 101⟩] noFilter tid0
                    [poiLayer] (fr 0) (fr 512) (fr 1)) f L)).flatten) :=
  have h : query fiDup [] [⟨99, 99⟩, ⟨101, 101⟩] (fr 0) (fr 512) (fr 1) noFilter
      tid0 "s" [poiLayer] noSymbols (fr 0)
      = .ok [("poi-layer", [⟨⟨0⟩, ⟨0, 0, 0⟩⟩, ⟨⟨1⟩, ⟨0, 0, 0⟩⟩])] := by decide
  ⟨rfl, h, by decide, c2_grid_hits_descending_dedup rfl h⟩

/-- C1 (counterexample): the source does not deduplicate symbol hits.  A
collision index returning two hits that share sort index 5 yields a query
result in which that sort index was resolved twice — the layer sequence holds
two features, where the claim's deduplication would give one. -/
theorem c1_counterexample :
    dupSymbols [⟨0, 0⟩] tid0 "src" = [⟨0, "sl", "b", 5⟩, ⟨0, "sl", "b", 5⟩]
    ∧ query fiSym [] [⟨0, 0⟩] (fr 0) (fr 512) (fr 1) noFilter tid0 "src"
        [symLayer] dupSymbols (fr 0)
      = .ok [("symL", [⟨⟨7⟩, ⟨0, 0, 0⟩⟩, ⟨⟨7⟩, ⟨0, 0, 0⟩⟩])]
    ∧ (lookupResult [("symL", [⟨⟨7⟩, ⟨0, 0, 0⟩⟩, ⟨⟨7⟩, ⟨0, 0, 0⟩⟩])] "symL").length = 2 :=
  ⟨rfl, by decide, by decide⟩

/-- C1 (amended): in `query`, the symbol hits returned by the collision index
are sorted in ascending sort-index order and then every hit — duplicates
included, with no deduplication — is resolved in that order and appended to
the output mapping, so for any layer the symbol results appear in ascending
sort-index order of their hits. -/
theorem c1_symbols_sorted_ascending_no_dedup {fi : FeatureIndex} {td : TileData}
    {r r1 r' : ResultMap} {qg : List GPoint} {bearing ts sc : Frac}
    {opts : RenderedQueryOptions} {tid : UnwrappedTileID} {sid : String}
    {layers : List RenderLayer} {ci : CollisionIndex} {aqr : Frac}
    (htd : fi.tileData = some td)
    (hgrid : queryGridLoop (queryCtx fi td qg opts tid layers bearing ts sc)
        (sortTopDown (gridQuery fi.grid (queryBox qg aqr ts sc))) USIZE_MAX r = .ok r1)
    (hq : query fi r qg bearing ts sc opts tid sid layers ci aqr = .ok r') :
    List.Chain' topDownSymbols (sortTopDownSymbols (ci qg tid sid))
    ∧ (sortTopDownSymbols (ci qg tid sid)).Perm (ci qg tid sid)
    ∧ ∀ L, lookupResult r' L = lookupResult r1 L ++
        ((sortTopDownSymbols (ci qg tid sid)).map
          (fun f => featureContribL (queryCtx fi td qg opts tid layers bearing ts sc) f L)).flatten := by
  refine ⟨(List.chain'_iff_pairwise).mpr (sortTopDownSymbols_pairwise _),
    sortTopDownSymbols_perm _, ?_⟩
  rw [query_some htd] at hq
  simp only [hgrid] at hq
  intro L
  exact querySymbolLoop_ok hq L

theorem c1_symbols_sorted_ascending_no_dedup_witness :
    fiSym.tileData = some tdSym
    ∧ query fiSym [] [⟨0, 0⟩] (fr 0) (fr 512) (fr 1) noFilter tid0 "s"
        [symLayer] twoSymbols (fr 0)
      = .ok [("symL", [⟨⟨8⟩, ⟨0, 0, 0⟩⟩, ⟨⟨7⟩, ⟨0, 0, 0⟩⟩])]
    ∧ (sortTopDownSymbols (twoSymbols [⟨0, 0⟩] tid0 "s")).map (fun f => f.sortIndex) = [3, 5]
    ∧ (List.Chain' topDownSymbols (sortTopDownSymbols (twoSymbols [⟨0, 0⟩] tid0 "s"))
      ∧ (sortTopDownSymbols (twoSymbols [⟨0, 0⟩] tid0 "s")).Perm (twoSymbols [⟨0, 0⟩] tid0 "s")
      ∧ ∀ L, lookupResult [("symL", [⟨⟨8⟩, ⟨0, 0, 0⟩⟩, ⟨⟨7⟩, ⟨0, 0, 0⟩⟩])] L
          = lookupResult [] L ++
            ((sortTopDownSymbols (twoSymbols [⟨0, 0⟩] tid0 "s")).map
              (fun f => featureContribL
                (queryCtx fiSym tdSym [⟨0, 0⟩] noFilter tid0 [symLayer]
                  (fr 0) (fr 512) (fr 1)) f L)).flatten) :=
  have hg : queryGridLoop (queryCtx fiSym tdSym [⟨0, 0⟩] noFilter tid0 [symLayer]
        (fr 0) (fr 512) (fr 1))
      (sortTopDown (gridQuery fiSym.grid
        (queryBox [⟨0, 0⟩] (fr 0) (fr 512) (fr 1)))) USIZE_MAX [] = .ok [] := by decide
  have h : query fiSym [] [⟨0, 0⟩] (fr 0) (fr 512) (fr 1) noFilter tid0 "s"
      [symLayer] twoSymbols (fr 0)
      = .ok [("symL", [⟨⟨8⟩, ⟨0, 0, 0⟩⟩, ⟨⟨7⟩, ⟨0, 0, 0⟩⟩])] := by decide
  ⟨rfl, h, by decide, c1_symbols_sorted_ascending_no_dedup rfl hg h⟩

/-- C3 (counterexample): the source narrows the tile-unit radius to `int16_t`
*before* clamping, so a requested radius whose tile-unit value exceeds the
int16 range does not behave like requesting exactly the tile extent: at
tileSize = scale = 1, a 9000-pixel radius converts to 73,728,000 tile units,
narrows (wrapping) to 0, and the query misses a feature 5000 units away,
while a radius converting to exactly the tile extent (8192) finds it. -/
theorem c3_counterexample :
    EXTENT ≤ fracTrunc (Frac.mul (fr 9000)
        (Frac.div (Frac.div (Frac.ofInt EXTENT) (fr 1)) (fr 1)))
    ∧ fracTrunc (Frac.mul (fr 9000)
        (Frac.div (Frac.div (Frac.ofInt EXTENT) (fr 1)) (fr 1))) = 73728000
    ∧ fracTrunc (Frac.mul (fr 1)
        (Frac.div (Frac.div (Frac.ofInt EXTENT) (fr 1)) (fr 1))) = EXTENT
    ∧ computeAdditionalRadius (fr 9000) (fr 1) (fr 1) = 0
    ∧ computeAdditionalRadius (fr 1) (fr 1) (fr 1) = EXTENT
    ∧ query fiFar [] [⟨0, 0⟩] (fr 0) (fr 1) (fr 1) noFilter tid0 "s"
        [poiLayer] noSymbols (fr 9000) = .ok []
    ∧ query fiFar [] [⟨0, 0⟩] (fr 0) (fr 1) (fr 1) noFilter tid0 "s"
        [poiLayer] noSymbols (fr 1)
      = .ok [("poi-layer", [⟨⟨0⟩, ⟨0, 0, 0⟩⟩])] :=
  ⟨by decide, by decide, by decide, by decide, by decide, by decide, by decide⟩

/-- C3 (amended): in `query`, the additional radius is converted to tile units
by multiplying with `pixelsToTileUnits = EXTENT / tileSize / scale`, narrowed
to `int16_t`, and clamped to at most the full tile extent.  For every query
whose tile-unit radius value is representable in `int16_t` (at most 32767),
a value that reaches the tile extent yields a radius of exactly `EXTENT`, the
query behaves identically to one whose requested radius converts to exactly
the tile extent, and for query coordinates inside the tile the expanded query
box stays inside the representable int16 coordinate range.  (Above the int16
range the narrowing itself overflows before the clamp — see the
counterexample.) -/
theorem c3_additional_radius_clamped {fi : FeatureIndex} {r : ResultMap}
    {qg : List GPoint} {bearing : Frac} {opts : RenderedQueryOptions}
    {tid : UnwrappedTileID} {sid : String} {layers : List RenderLayer}
    {ci : CollisionIndex} {ts sc aqr : Frac}
    (hcoords : ∀ p ∈ qg, 0 ≤ p.x ∧ p.x ≤ EXTENT ∧ 0 ≤ p.y ∧ p.y ≤ EXTENT)
    (hbig : EXTENT ≤ fracTrunc (Frac.mul aqr
        (Frac.div (Frac.div (Frac.ofInt EXTENT) ts) sc)))
    (hrep : fracTrunc (Frac.mul aqr
        (Frac.div (Frac.div (Frac.ofInt EXTENT) ts) sc)) ≤ INT16_MAX) :
    computeAdditionalRadius aqr ts sc = EXTENT
    ∧ (∀ aqr', fracTrunc (Frac.mul aqr'
          (Frac.div (Frac.div (Frac.ofInt EXTENT) ts) sc)) = EXTENT →
        query fi r qg bearing ts sc opts tid sid layers ci aqr
          = query fi r qg bearing ts sc opts tid sid layers ci aqr')
    ∧ (INT16_MIN ≤ (queryBox qg aqr ts sc).min.x ∧ (queryBox qg aqr ts sc).min.x ≤ INT16_MAX
      ∧ INT16_MIN ≤ (queryBox qg aqr ts sc).max.x ∧ (queryBox qg aqr ts sc).max.x ≤ INT16_MAX
      ∧ INT16_MIN ≤ (queryBox qg aqr ts sc).min.y ∧ (queryBox qg aqr ts sc).min.y ≤ INT16_MAX
      ∧ INT16_MIN ≤ (queryBox qg aqr ts sc).max.y ∧ (queryBox qg aqr ts sc).max.y ≤ INT16_MAX) := by
  have hlo : INT16_MIN ≤ fracTrunc (Frac.mul aqr
      (Frac.div (Frac.div (Frac.ofInt EXTENT) ts) sc)) :=
    le_trans (by decide) hbig
  have hr : computeAdditionalRadius aqr ts sc = EXTENT := by
    unfold computeAdditionalRadius
    rw [int16Narrow_eq_self hlo hrep]
    exact min_eq_left hbig
  refine ⟨hr, fun aqr' h' => query_radius_congr ?_, ?_⟩
  · rw [hr]
    unfold computeAdditionalRadius
    rw [h', int16Narrow_eq_self (by decide) (by decide)]
    simp
  · obtain ⟨e1, e2, e3, e4, e5, e6, e7, e8⟩ := envelope_bounds hcoords
    have hb : queryBox qg aqr ts sc =
        ⟨⟨(envelope qg).min.x - EXTENT, (envelope qg).min.y - EXTENT⟩,
         ⟨(envelope qg).max.x + EXTENT, (envelope qg).max.y + EXTENT⟩⟩ := by
      unfold queryBox
      rw [hr]
    rw [hb]
    simp only [EXTENT, INT16_MIN, INT16_MAX] at e1 e2 e3 e4 e5 e6 e7 e8 ⊢
    omega

theorem c3_additional_radius_clamped_witness :
    (∀ p ∈ ([⟨100, 100⟩] : List GPoint), 0 ≤ p.x ∧ p.x ≤ EXTENT ∧ 0 ≤ p.y ∧ p.y ≤ EXTENT)
    ∧ EXTENT ≤ fracTrunc (Frac.mul (fr 2)
        (Frac.div (Frac.div (Frac.ofInt EXTENT) (fr 1)) (fr 1)))
    ∧ fracTrunc (Frac.mul (fr 2)
        (Frac.div (Frac.div (Frac.ofInt EXTENT) (fr 1)) (fr 1))) ≤ INT16_MAX
    ∧ (computeAdditionalRadius (fr 2) (fr 1) (fr 1) = EXTENT
      ∧ (∀ aqr', fracTrunc (Frac.mul aqr'
            (Frac.div (Frac.div (Frac.ofInt EXTENT) (fr 1)) (fr 1))) = EXTENT →
          query fiPoi [] [⟨100, 100⟩] (fr 0) (fr 1) (fr 1) noFilter tid0 "s"
              [poiLayer] noSymbols (fr 2)
            = query fiPoi [] [⟨100, 100⟩] (fr 0) (fr 1) (fr 1) noFilter tid0 "s"
              [poiLayer] noSymbols aqr')
      ∧ (INT16_MIN ≤ (queryBox [⟨100, 100⟩] (fr 2) (fr 1) (fr 1)).min.x
        ∧ (queryBox [⟨100, 100⟩] (fr 2) (fr 1) (fr 1)).min.x ≤ INT16_MAX
        ∧ INT16_MIN ≤ (queryBox [⟨100, 100⟩] (fr 2) (fr 1) (fr 1)).max.x
        ∧ (queryBox [⟨100, 100⟩] (fr 2) (fr 1) (fr 1)).max.x ≤ INT16_MAX
        ∧ INT16_MIN ≤ (queryBox [⟨100, 100⟩] (fr 2) (fr 1) (fr 1)).min.y
        ∧ (queryBox [⟨100, 100⟩] (fr 2) (fr 1) (fr 1)).min.y ≤ INT16_MAX
        ∧ INT16_MIN ≤ (queryBox [⟨100, 100⟩] (fr 2) (fr 1) (fr 1)).max.y
        ∧ (queryBox [⟨100, 100⟩] (fr 2) (fr 1) (fr 1)).max.y ≤ INT16_MAX)) :=
  ⟨by decide, by decide, by decide,
   c3_additional_radius_clamped (by decide) (by decide) (by decide)⟩

/-- Rotating a point by an angle with cosine 0 and sine -1 (that is, by -90°)
maps `(x, y)` to `(y, -x)`. -/
theorem rotatePoint_quarter (p : GPoint) :
    rotatePoint p (Frac.ofInt 0) (Frac.ofInt (-1)) = ⟨p.y, -p.x⟩ := by
  simp [rotatePoint, Frac.mul, Frac.sub, Frac.add, Frac.ofInt, fracTrunc]

/-- C6: `translateQueryGeometry` returns no value exactly when both offset
components are zero; otherwise it scales the offset by `pixelsToTileUnits`
(truncating to integer coordinates), rotates the resulting vector by the
negative bearing exactly when the anchor is viewport-relative, and subtracts
that vector from every coordinate; in particular, with a viewport anchor and
bearing 90° (cos(-90°) = 0, sin(-90°) = -1) the geometry is translated by the
offset rotated by -90°. -/
theorem c6_translate_query_geometry (qg : List GPoint) (t : Frac × Frac)
    (a : TranslateAnchorType) (c s p2t : Frac) :
    (translateQueryGeometry qg t a c s p2t = none ↔ (t.1.num = 0 ∧ t.2.num = 0))
    ∧ (¬(t.1.num = 0 ∧ t.2.num = 0) →
        translateQueryGeometry qg t a c s p2t = some (qg.map (fun p =>
          ⟨p.x - (if a = TranslateAnchorType.viewport
              then rotatePoint ⟨fracTrunc (Frac.mul t.1 p2t), fracTrunc (Frac.mul t.2 p2t)⟩ c s
              else ⟨fracTrunc (Frac.mul t.1 p2t), fracTrunc (Frac.mul t.2 p2t)⟩).x,
           p.y - (if a = TranslateAnchorType.viewport
              then rotatePoint ⟨fracTrunc (Frac.mul t.1 p2t), fracTrunc (Frac.mul t.2 p2t)⟩ c s
              else ⟨fracTrunc (Frac.mul t.1 p2t), fracTrunc (Frac.mul t.2 p2t)⟩).y⟩)))
    ∧ (a = TranslateAnchorType.viewport → c = Frac.ofInt 0 → s = Frac.ofInt (-1) →
        ¬(t.1.num = 0 ∧ t.2.num = 0) →
        translateQueryGeometry qg t a c s p2t = some (qg.map (fun p =>
          ⟨p.x - fracTrunc (Frac.mul t.2 p2t), p.y + fracTrunc (Frac.mul t.1 p2t)⟩))) := by
  refine ⟨⟨fun h => ?_, fun hz => ?_⟩, fun hz => ?_, fun ha hc hs hz => ?_⟩
  · by_cases hz : t.1.num = 0 ∧ t.2.num = 0
    · exact hz
    · simp [translateQueryGeometry, hz] at h
  · simp [translateQueryGeometry, hz]
  · simp only [translateQueryGeometry, if_neg hz]
  · subst ha
    subst hc
    subst hs
    simp only [translateQueryGeometry, if_neg hz, if_pos rfl, rotatePoint_quarter,
      Option.some.injEq]
    refine List.map_congr_left fun p _ => ?_
    simp [sub_neg_eq_add]

theorem c6_translate_query_geometry_witness :
    ¬(((fr 3, fr 4) : Frac × Frac).1.num = 0 ∧ ((fr 3, fr 4) : Frac × Frac).2.num = 0)
    ∧ (translateQueryGeometry [⟨10, 20⟩] (fr 3, fr 4) TranslateAnchorType.viewport
        (Frac.ofInt 0) (Frac.ofInt (-1)) (fr 1) = none
      ↔ ((fr 3, fr 4) : Frac × Frac).1.num = 0 ∧ ((fr 3, fr 4) : Frac × Frac).2.num = 0)
    ∧ translateQueryGeometry [⟨10, 20⟩] (fr 3, fr 4) TranslateAnchorType.viewport
        (Frac.ofInt 0) (Frac.ofInt (-1)) (fr 1)
      = some [⟨10 - fracTrunc (Frac.mul (fr 4) (fr 1)),
              20 + fracTrunc (Frac.mul (fr 3) (fr 1))⟩] :=
  ⟨by decide,
   (c6_translate_query_geometry [⟨10, 20⟩] (fr 3, fr 4) TranslateAnchorType.viewport
     (Frac.ofInt 0) (Frac.ofInt (-1)) (fr 1)).1,
   (c6_translate_query_geometry [⟨10, 20⟩] (fr 3, fr 4) TranslateAnchorType.viewport
     (Frac.ofInt 0) (Frac.ofInt (-1)) (fr 1)).2.2 rfl rfl rfl (by decide)⟩

/-- C7: a subfeature whose bucket is mapped to two layer identifiers, both
present among the active layers and both passing the (symbol-skipped)
intersection test and the filter, yields one appended `Feature` in each of the
two layers' result sequences. -/
theorem c7_bucket_fanout (ctx : QueryCtx) (f : IndexedSubfeature) (r : ResultMap)
    (L1 L2 : String) (rl1 rl2 : RenderLayer) (gtf : GTFeature)
    (hids : lookupBucket ctx.bucketLayerIDs f.bucketName = some [L1, L2])
    (hne : L1 ≠ L2)
    (h1 : getRenderLayer ctx.layers L1 = some rl1)
    (h2 : getRenderLayer ctx.layers L2 = some rl2)
    (hres : resolveFeature ctx.td f = some gtf)
    (hp1 : rl1.isSymbol = true ∨ rl1.queryIntersectsFeature ctx.queryGeometry gtf
        ctx.tileID.z ctx.bearing ctx.pixelsToTileUnits = true)
    (hp2 : rl2.isSymbol = true ∨ rl2.queryIntersectsFeature ctx.queryGeometry gtf
        ctx.tileID.z ctx.bearing ctx.pixelsToTileUnits = true)
    (hflt : filterRejects ctx.options ctx.tileID.z gtf = false) :
    addFeature ctx f r = .ok (appendResult
        (appendResult r L1 (convertFeature gtf ctx.tileID)) L2 (convertFeature gtf ctx.tileID))
    ∧ lookupResult (appendResult (appendResult r L1 (convertFeature gtf ctx.tileID)) L2
          (convertFeature gtf ctx.tileID)) L1
        = lookupResult r L1 ++ [convertFeature gtf ctx.tileID]
    ∧ lookupResult (appendResult (appendResult r L1 (convertFeature gtf ctx.tileID)) L2
          (convertFeature gtf ctx.tileID)) L2
        = lookupResult r L2 ++ [convertFeature gtf ctx.tileID] := by
  have hc1 : (!rl1.isSymbol && !(rl1.queryIntersectsFeature ctx.queryGeometry gtf
      ctx.tileID.z ctx.bearing ctx.pixelsToTileUnits)) = false := by
    rcases hp1 with h | h <;> simp [h]
  have hc2 : (!rl2.isSymbol && !(rl2.queryIntersectsFeature ctx.queryGeometry gtf
      ctx.tileID.z ctx.bearing ctx.pixelsToTileUnits)) = false := by
    rcases hp2 with h | h <;> simp [h]
  have h21 : (L2 == L1) = false := by
    simp only [beq_eq_false_iff_ne, ne_eq]
    exact fun hc => hne hc.symm
  have h12 : (L1 == L2) = false := by simp [hne]
  refine ⟨?_, ?_, ?_⟩
  · unfold addFeature
    rw [hids]
    simp only [addFeatureLoop, h1, h2, hres, hc1, hc2, hflt, Bool.false_eq_true, if_false]
  · rw [lookupResult_appendResult, lookupResult_appendResult, h21, beq_self_eq_true]
    simp
  · rw [lookupResult_appendResult, lookupResult_appendResult, h12, beq_self_eq_true]
    simp

theorem c7_bucket_fanout_witness :
    lookupBucket [("b", ["A", "B"])] "b" = some ["A", "B"]
    ∧ (addFeature ⟨[("sl", [⟨1⟩])], [("b", ["A", "B"])], [⟨0, 0⟩], noFilter, ⟨0, 0, 0⟩,
          [⟨"A", false, fun _ _ _ _ _ => true⟩, ⟨"B", true, fun _ _ _ _ _ => false⟩],
          fr 0, fr 16⟩ ⟨0, "sl", "b", 0⟩ []
        = .ok (appendResult (appendResult [] "A" (convertFeature ⟨1⟩ ⟨0, 0, 0⟩)) "B"
            (convertFeature ⟨1⟩ ⟨0, 0, 0⟩))
      ∧ lookupResult (appendResult (appendResult [] "A" (convertFeature ⟨1⟩ ⟨0, 0, 0⟩)) "B"
            (convertFeature ⟨1⟩ ⟨0, 0, 0⟩)) "A"
          = lookupResult [] "A" ++ [convertFeature ⟨1⟩ ⟨0, 0, 0⟩]
      ∧ lookupResult (appendResult (appendResult [] "A" (convertFeature ⟨1⟩ ⟨0, 0, 0⟩)) "B"
            (convertFeature ⟨1⟩ ⟨0, 0, 0⟩)) "B"
          = lookupResult [] "B" ++ [convertFeature ⟨1⟩ ⟨0, 0, 0⟩]) :=
  ⟨rfl, c7_bucket_fanout
    ⟨[("sl", [⟨1⟩])], [("b", ["A", "B"])], [⟨0, 0⟩], noFilter, ⟨0, 0, 0⟩,
      [⟨"A", false, fun _ _ _ _ _ => true⟩, ⟨"B", true, fun _ _ _ _ _ => false⟩],
      fr 0, fr 16⟩ ⟨0, "sl", "b", 0⟩ [] "A" "B"
    ⟨"A", false, fun _ _ _ _ _ => true⟩ ⟨"B", true, fun _ _ _ _ _ => false⟩ ⟨1⟩
    rfl (by decide) rfl rfl rfl (Or.inr rfl) (Or.inl rfl) rfl⟩

/-- C8: a layer identifier registered under the subfeature's bucket that is
not among the active layers is silently skipped: processing is identical to
processing the identifier list with that identifier removed, and a successful
resolution adds nothing under that layer's key. -/
theorem c8_missing_layer_skipped (ctx : QueryCtx) (f : IndexedSubfeature)
    (L : String) (hmiss : getRenderLayer ctx.layers L = none) :
    (∀ (ids : List String) (r : ResultMap),
        addFeatureLoop ctx f ids r
          = addFeatureLoop ctx f (ids.filter (fun x => x != L)) r)
    ∧ (∀ (r r' : ResultMap), addFeature ctx f r = .ok r' →
        lookupResult r' L = lookupResult r L) := by
  refine ⟨addFeatureLoop_filter_missing hmiss, fun r r' h => ?_⟩
  rw [addFeature_ok h L]
  have hnil : featureContribL ctx f L = [] := by
    unfold featureContribL
    cases lookupBucket ctx.bucketLayerIDs f.bucketName with
    | none => rfl
    | some ids => exact contribLoop_no_layer hmiss ids
  rw [hnil]
  simp

theorem c8_missing_layer_skipped_witness :
    getRenderLayer [poiLayer] "ghost" = none
    ∧ ((∀ (ids : List String) (r : ResultMap),
          addFeatureLoop ⟨tdPoi, [("poi-bucket", ["ghost", "poi-layer"])], [⟨0, 0⟩],
              noFilter, ⟨0, 0, 0⟩, [poiLayer], fr 0, fr 16⟩ ⟨0, "poi", "poi-bucket", 0⟩ ids r
            = addFeatureLoop ⟨tdPoi, [("poi-bucket", ["ghost", "poi-layer"])], [⟨0, 0⟩],
              noFilter, ⟨0, 0, 0⟩, [poiLayer], fr 0, fr 16⟩ ⟨0, "poi", "poi-bucket", 0⟩
              (ids.filter (fun x => x != "ghost")) r)
      ∧ (∀ (r r' : ResultMap),
          addFeature ⟨tdPoi, [("poi-bucket", ["ghost", "poi-layer"])], [⟨0, 0⟩],
              noFilter, ⟨0, 0, 0⟩, [poiLayer], fr 0, fr 16⟩ ⟨0, "poi", "poi-bucket", 0⟩ r
            = .ok r' →
          lookupResult r' "ghost" = lookupResult r "ghost")) :=
  ⟨rfl, c8_missing_layer_skipped
    ⟨tdPoi, [("poi-bucket", ["ghost", "poi-layer"])], [⟨0, 0⟩],
      noFilter, ⟨0, 0, 0⟩, [poiLayer], fr 0, fr 16⟩ ⟨0, "poi", "poi-bucket", 0⟩ "ghost" rfl⟩

/-- C9: `setBucketLayerIDs` is idempotent and last-write-wins for a bucket
name, a set value is found by the bucket-map lookup, and for any query in
which every grid hit's and collision hit's bucket name is registered, the
bucket-map lookup failure branch of `addFeature` (the `at` throw) is
unreachable: the query never returns the bucket-missing error. -/
theorem c9_bucket_registration (fi : FeatureIndex) (b : String)
    (ids ids2 : List String) {td : TileData} {r : ResultMap} {qg : List GPoint}
    {bearing ts sc : Frac} {opts : RenderedQueryOptions} {tid : UnwrappedTileID}
    {sid : String} {layers : List RenderLayer} {ci : CollisionIndex} {aqr : Frac}
    (htd : fi.tileData = some td)
    (hreg : ∀ f ∈ gridQuery fi.grid (queryBox qg aqr ts sc) ++ ci qg tid sid,
        (lookupBucket fi.bucketLayerIDs f.bucketName).isSome = true) :
    lookupBucket (setBucketLayerIDs fi b ids).bucketLayerIDs b = some ids
    ∧ setBucketLayerIDs (setBucketLayerIDs fi b ids) b ids = setBucketLayerIDs fi b ids
    ∧ setBucketLayerIDs (setBucketLayerIDs fi b ids) b ids2 = setBucketLayerIDs fi b ids2
    ∧ query fi r qg bearing ts sc opts tid sid layers ci aqr
        ≠ .error AddErr.bucketMissing := by
  have hg_reg : ∀ f ∈ sortTopDown (gridQuery fi.grid (queryBox qg aqr ts sc)),
      (lookupBucket (queryCtx fi td qg opts tid layers bearing ts sc).bucketLayerIDs
        f.bucketName).isSome = true := by
    intro f hf
    exact hreg f (List.mem_append.mpr (Or.inl ((sortTopDown_perm _).subset hf)))
  have hs_reg : ∀ f ∈ sortTopDownSymbols (ci qg tid sid),
      (lookupBucket (queryCtx fi td qg opts tid layers bearing ts sc).bucketLayerIDs
        f.bucketName).isSome = true := by
    intro f hf
    exact hreg f (List.mem_append.mpr (Or.inr ((sortTopDownSymbols_perm _).subset hf)))
  refine ⟨?_, ?_, ?_, ?_⟩
  · simp [setBucketLayerIDs, lookupBucket_mapAssign_same]
  · simp [setBucketLayerIDs, mapAssign_idem]
  · simp [setBucketLayerIDs, mapAssign_last]
  · rw [query_some htd]
    cases hg : queryGridLoop (queryCtx fi td qg opts tid layers bearing ts sc)
        (sortTopDown (gridQuery fi.grid (queryBox qg aqr ts sc))) USIZE_MAX r with
    | error e =>
      intro hcontra
      have he : e = AddErr.bucketMissing := by
        injection hcontra
      subst he
      exact queryGridLoop_ne_bucketMissing hg_reg hg
    | ok r1 =>
      exact querySymbolLoop_ne_bucketMissing hs_reg

theorem c9_bucket_registration_witness :
    fiPoi.tileData = some tdPoi
    ∧ (∀ f ∈ gridQuery fiPoi.grid
          (queryBox [⟨99, 99⟩, ⟨101, 101⟩] (fr 0) (fr 512) (fr 1))
          ++ noSymbols [⟨99, 99⟩, ⟨101, 101⟩] tid0 "s",
        (lookupBucket fiPoi.bucketLayerIDs f.bucketName).isSome = true)
    ∧ (lookupBucket (setBucketLayerIDs fiPoi "b2" ["x"]).bucketLayerIDs "b2" = some ["x"]
      ∧ setBucketLayerIDs (setBucketLayerIDs fiPoi "b2" ["x"]) "b2" ["x"]
          = setBucketLayerIDs fiPoi "b2" ["x"]
      ∧ setBucketLayerIDs (setBucketLayerIDs fiPoi "b2" ["x"]) "b2" ["y"]
          = setBucketLayerIDs fiPoi "b2" ["y"]
      ∧ query fiPoi [] [⟨99, 99⟩, ⟨101, 101⟩] (fr 0) (fr 512) (fr 1) noFilter tid0 "s"
          [poiLayer] noSymbols (fr 0) ≠ .error AddErr.bucketMissing) :=
  ⟨rfl, by decide, c9_bucket_registration fiPoi "b2" ["x"] ["y"] rfl (by decide)⟩

end FeatureIndexSpec
